import Mathlib

/-!
Verification of the position-matching and performance-accounting engines of the
stock-logger repository.  Decimal quantities are modelled as rationals (`ℚ`),
dates as natural numbers (day ordinals), Python dicts as insertion-ordered
association lists.  Each Python module that the claims touch is embedded in its
own namespace:

* `PortfolioHistory` — `py_portfolio_history/calculator.py` together with the
  dataclasses of `py_portfolio_history/types.py`;
* `TradeLogic`       — `trade_logic.py` (`TradeProcessor`);
* `Fifo`             — `py_portfolio_history/fifo_engine.py` (`FifoEngine`);
* `PortfolioXml`     — `portfolio.py` (`Portfolio` / `Position`);
* `PyPortfolio`      — `py_portfolio/trade_logic.py` (`TradeProcessor`).
-/

namespace PyDict

/-- Lookup in an insertion-ordered Python dict (association list). -/
def get? {α : Type} : List (String × α) → String → Option α
  | [], _ => none
  | (k, v) :: rest, key => if k = key then some v else get? rest key

/-- Write a key: update the first occurrence in place, or append a fresh entry
at the end (Python dict semantics). -/
def set {α : Type} : List (String × α) → String → α → List (String × α)
  | [], key, v => [(key, v)]
  | (k, w) :: rest, key, v =>
      if k = key then (k, v) :: rest else (k, w) :: set rest key v

/-- Delete a key (`del d[key]`). -/
def erase {α : Type} : List (String × α) → String → List (String × α)
  | [], _ => []
  | (k, w) :: rest, key =>
      if k = key then rest else (k, w) :: erase rest key

/-- Membership in a dict after a `set` comes from the written pair or from the
original dict. -/
theorem mem_set {α : Type} (l : List (String × α)) (key : String) (v : α) :
    ∀ x ∈ set l key v, x = (key, v) ∨ x ∈ l := by
  induction l with
  | nil => intro x hx; simp [set] at hx; simp [hx]
  | cons kw rest ih =>
      intro x hx
      by_cases h : kw.1 = key
      · simp [set, h] at hx
        rcases hx with hx | hx
        · left; simp [hx]
        · right; simp [hx]
      · simp [set, h] at hx
        rcases hx with hx | hx
        · right; simp [hx]
        · rcases ih x hx with h1 | h1
          · left; exact h1
          · right; simp [h1]

/-- Membership in a dict after an `erase` comes from the original dict. -/
theorem mem_erase {α : Type} (l : List (String × α)) (key : String) :
    ∀ x ∈ erase l key, x ∈ l := by
  induction l with
  | nil => intro x hx; simp [erase] at hx
  | cons kw rest ih =>
      intro x hx
      by_cases h : kw.1 = key
      · simp [erase, h] at hx; simp [hx]
      · simp [erase, h] at hx
        rcases hx with hx | hx
        · simp [hx]
        · simp [ih x hx]

end PyDict

namespace PortfolioHistory

/-- Market data provider interface (`IMarketDataProvider`): total functions,
as the Protocol in `calculator.py` promises a `Decimal` result. -/
structure MarketData where
  get_market_price : String → String → ℕ → ℚ
  get_fx_rate : String → String → ℕ → ℚ

/-- Transaction record of `py_portfolio_history/types.py`. -/
structure Transaction where
  id : String
  date : ℕ
  type : String
  symbol : String
  isin : String
  quantity : ℚ
  price : ℚ
  commission : ℚ
  currency : String

/-- Tranche record of `py_portfolio_history/types.py`. -/
structure Tranche where
  id : String
  date : ℕ
  quantity : ℚ
  price : ℚ
  commission : ℚ
  isin : String
  currency : String
deriving DecidableEq

/-- Position record of `py_portfolio_history/types.py`. -/
structure Position where
  symbol : String
  isin : String
  quantity : ℚ
  avg_entry_price : ℚ
  current_price : ℚ
  market_value : ℚ
  accumulated_fees : ℚ
  realized_pnl : ℚ
  unrealized_pnl : ℚ
  holding_days : ℤ
  currency : String
  exchange_rate : ℚ
  tranches : List Tranche
deriving DecidableEq

/-- ClosedTrade record of `py_portfolio_history/types.py`. -/
structure ClosedTrade where
  entry_id : String
  exit_id : String
  symbol : String
  quantity : ℚ
  entry_date : ℕ
  exit_date : ℕ
  entry_price : ℚ
  exit_price : ℚ
  gross_pnl : ℚ
  fees : ℚ
  real_pnl : ℚ
  holding_days : ℤ
  winning_trade : Bool
deriving DecidableEq

/-- Profit factor values: Python floats that are either finite or `float(\x7binf\x7d)`.
(`calculator.py` only ever produces finite values; `trade_logic.py` can produce
the infinity.) -/
inductive PF where
  | val (q : ℚ)
  | inf
deriving DecidableEq

/-- PerformanceMetrics record of `py_portfolio_history/types.py`. -/
structure PerformanceMetrics where
  trading_pnl : ℚ
  realized_pnl : ℚ
  accounting_pnl : ℚ
  fees_total : ℚ
  inflows_total : ℚ
  win_rate : ℚ
  profit_factor : PF
  expectancy : ℚ
  closed_trades_count : ℕ
  open_positions_count : ℕ
  total_transactions_count : ℕ
deriving DecidableEq

/-- PortfolioSnapshot dataclass of `py_portfolio_history/types.py`; note the
required `collateral` field. -/
structure PortfolioSnapshot where
  date : ℕ
  cash : ℚ
  collateral : ℚ
  invested : ℚ
  market_value_total : ℚ
  total_equity : ℚ
  inflows : ℚ
  drawdown : ℚ
  performance : PerformanceMetrics
  positions : List (String × Position)
deriving DecidableEq

/-- Python runtime errors that the embedding can surface; `typeError f` models
the `TypeError` raised when a dataclass constructor misses required field `f`. -/
inductive PyError where
  | typeError (missingField : String)
deriving DecidableEq

/-- Mutable state of `PortfolioCalculator` (its `__init__` attributes). -/
structure CalcState where
  cash_balance_eur : ℚ
  inflows_total : ℚ
  open_positions : List (String × Position)
  closed_trades : List ClosedTrade
  cum_trading_pnl : ℚ
  cum_realized_pnl : ℚ
  cum_accounting_pnl : ℚ
  cum_fees : ℚ
  transaction_count : ℕ
  high_water_mark : ℚ
deriving DecidableEq

/-- Initial state created by `PortfolioCalculator.__init__`. -/
def initState : CalcState :=
  { cash_balance_eur := 0, inflows_total := 0, open_positions := [],
    closed_trades := [], cum_trading_pnl := 0, cum_realized_pnl := 0,
    cum_accounting_pnl := 0, cum_fees := 0, transaction_count := 0,
    high_water_mark := 0 }

/-- Embedding of `PortfolioCalculator._convert_to_eur`. -/
def convert_to_eur (md : MarketData) (amount : ℚ) (currency : String) (query_date : ℕ) : ℚ :=
  if currency = "EUR" then amount else amount * md.get_fx_rate currency "EUR" query_date

/-- Sum of the tranche quantities of a queue (the right-hand side of the
lot-conservation invariant). -/
def sumTrancheQty (l : List Tranche) : ℚ :=
  (l.map Tranche.quantity).sum

/-- Total cost `sum(tr.quantity * tr.price for tr in pos.tranches)`. -/
def totalCost (l : List Tranche) : ℚ :=
  (l.map (fun tr => tr.quantity * tr.price)).sum

/-- Embedding of `PortfolioCalculator._handle_buy`. -/
def handle_buy (t : Transaction) (s : CalcState) : CalcState :=
  let pos := (PyDict.get? s.open_positions t.symbol).getD
    { symbol := t.symbol, isin := t.isin, quantity := 0, avg_entry_price := 0,
      current_price := t.price, market_value := 0, accumulated_fees := 0,
      realized_pnl := 0, unrealized_pnl := 0, holding_days := 0,
      currency := t.currency, exchange_rate := 1, tranches := [] }
  let tranche : Tranche :=
    { id := t.id, date := t.date, quantity := t.quantity, price := t.price,
      commission := t.commission, isin := t.isin, currency := t.currency }
  let tranches' := pos.tranches ++ [tranche]
  let qty' := pos.quantity + t.quantity
  let avg' := if 0 < qty' then totalCost tranches' / qty' else pos.avg_entry_price
  let pos' := { pos with
    tranches := tranches'
    quantity := qty'
    accumulated_fees := pos.accumulated_fees + t.commission
    avg_entry_price := avg' }
  { s with open_positions := PyDict.set s.open_positions t.symbol pos' }

/-- Per-match accumulator carried through the LIFO matching loop of
`_handle_sell_lifo` (the `self.cum_*` additions, the emitted `ClosedTrade`
records, and the amounts removed from `pos.accumulated_fees`). -/
structure SellAcc where
  trading : ℚ
  realized : ℚ
  accounting : ℚ
  closed : List ClosedTrade
  feesRemoved : ℚ
deriving DecidableEq

/-- Result of one iteration of the matching loop: `cont` removes the tranche
from the queue and continues, `stop` leaves a partially closed tranche. -/
inductive SellStep where
  | cont (remaining : ℚ) (acc : SellAcc)
  | stop (remaining : ℚ) (tranche : Tranche) (acc : SellAcc)
deriving DecidableEq

/-- Remaining trade quantity after the iteration. -/
def SellStep.rem : SellStep → ℚ
  | .cont r _ => r
  | .stop r _ _ => r

/-- Quantity taken out of the queue lot by the iteration: the whole lot if it
was popped, the reduction otherwise. -/
def SellStep.consumedLotQty (tr : Tranche) : SellStep → ℚ
  | .cont _ _ => tr.quantity
  | .stop _ tr' _ => tr.quantity - tr'.quantity

/-- Body of the LIFO matching loop of `_handle_sell_lifo` (one iteration over
the most recent open tranche). -/
def sellStep (md : MarketData) (t : Transaction) (remaining : ℚ) (tr : Tranche)
    (acc : SellAcc) : SellStep :=
  let matchQty := min remaining tr.quantity
  let unitBuyFee := if 0 < tr.quantity then tr.commission / tr.quantity else 0
  let buyFeePart := unitBuyFee * matchQty
  let sellFeePart := if 0 < t.quantity then t.commission * (matchQty / t.quantity) else 0
  let grossPnl := (t.price - tr.price) * matchQty
  let totalFees := buyFeePart + sellFeePart
  let realPnl := grossPnl - totalFees
  let grossEur := convert_to_eur md grossPnl t.currency t.date
  let realEur := convert_to_eur md realPnl t.currency t.date
  let closed : ClosedTrade :=
    { entry_id := tr.id, exit_id := t.id, symbol := t.symbol, quantity := matchQty,
      entry_date := tr.date, exit_date := t.date, entry_price := tr.price,
      exit_price := t.price, gross_pnl := grossEur,
      fees := convert_to_eur md totalFees t.currency t.date, real_pnl := realEur,
      holding_days := (t.date : ℤ) - (tr.date : ℤ), winning_trade := decide (0 < realPnl) }
  let acc' : SellAcc :=
    { trading := acc.trading + grossEur, realized := acc.realized + realEur,
      accounting := acc.accounting + realEur, closed := acc.closed ++ [closed],
      feesRemoved := acc.feesRemoved }
  if matchQty = tr.quantity then
    .cont (remaining - matchQty) { acc' with feesRemoved := acc'.feesRemoved + tr.commission }
  else
    .stop (remaining - matchQty)
      { tr with quantity := tr.quantity - matchQty, commission := tr.commission - buyFeePart }
      { acc' with feesRemoved := acc'.feesRemoved + buyFeePart }

/-- LIFO matching loop of `_handle_sell_lifo`.  The queue is passed most
recent tranche first (`pos.tranches` reversed); the loop runs while
`remaining_qty > 0` and tranches remain.  A `stop` step leaves the loop: its
match quantity then equals `remaining`, so the re-checked guard fails. -/
def sellLoop (md : MarketData) (t : Transaction) :
    ℚ → List Tranche → SellAcc → ℚ × List Tranche × SellAcc
  | remaining, [], acc => (remaining, [], acc)
  | remaining, tr :: rest, acc =>
      if 0 < remaining then
        match sellStep md t remaining tr acc with
        | .cont rem' acc' => sellLoop md t rem' rest acc'
        | .stop rem' tr' acc' => (rem', tr' :: rest, acc')
      else (remaining, tr :: rest, acc)

/-- Embedding of `PortfolioCalculator._handle_sell_lifo`: LIFO matching, position
aggregates update, deletion of emptied positions. -/
def handle_sell_lifo (md : MarketData) (t : Transaction) (s : CalcState) : CalcState :=
  match PyDict.get? s.open_positions t.symbol with
  | none => s
  | some pos =>
      let res := sellLoop md t t.quantity pos.tranches.reverse
        { trading := 0, realized := 0, accounting := 0, closed := [], feesRemoved := 0 }
      let remaining := res.1
      let tranches' := res.2.1.reverse
      let acc := res.2.2
      let qty' := pos.quantity - (t.quantity - remaining)
      let avg' := if 0 < qty' then totalCost tranches' / qty' else 0
      let pos' := { pos with
        tranches := tranches'
        quantity := qty'
        avg_entry_price := avg'
        accumulated_fees := pos.accumulated_fees - acc.feesRemoved }
      let positions' :=
        if qty' = 0 then PyDict.erase s.open_positions t.symbol
        else PyDict.set s.open_positions t.symbol pos'
      { s with open_positions := positions',
               closed_trades := s.closed_trades ++ acc.closed,
               cum_trading_pnl := s.cum_trading_pnl + acc.trading,
               cum_realized_pnl := s.cum_realized_pnl + acc.realized,
               cum_accounting_pnl := s.cum_accounting_pnl + acc.accounting }

/-- Per-position valuation performed inside `_create_snapshot` (sets
`current_price`, `market_value`, `exchange_rate`, `unrealized_pnl`,
`holding_days` in place; the quantity and tranches are untouched). -/
def valuePosition (md : MarketData) (timestamp : ℕ) (symbol : String) (pos : Position) :
    Position :=
  let price := md.get_market_price pos.isin symbol timestamp
  let fx_rate := md.get_fx_rate pos.currency "EUR" timestamp
  let price_eur := price * fx_rate
  let mv_eur := pos.quantity * price_eur
  let cost_basis_eur := pos.avg_entry_price * pos.quantity * fx_rate
  let holding :=
    match pos.tranches with
    | [] => pos.holding_days
    | tr :: rest => (timestamp : ℤ) - (((rest.map Tranche.date).foldl min tr.date : ℕ) : ℤ)
  { pos with
    current_price := price
    market_value := mv_eur
    exchange_rate := fx_rate
    unrealized_pnl := mv_eur - cost_basis_eur
    holding_days := holding }

/-- Embedding of `PortfolioCalculator._calc_win_rate`. -/
def calc_win_rate (closed : List ClosedTrade) : ℚ :=
  if closed = [] then 0
  else ((closed.filter (fun t => t.winning_trade)).length : ℚ) / (closed.length : ℚ) * 100

/-- Gross profit summed in `_calc_profit_factor`:
`sum(t.gross_pnl for t in self.closed_trades if t.gross_pnl > 0)`. -/
def grossWins (closed : List ClosedTrade) : ℚ :=
  ((closed.filter (fun t => 0 < t.gross_pnl)).map ClosedTrade.gross_pnl).sum

/-- Gross loss summed in `_calc_profit_factor`:
`abs(sum(t.gross_pnl for t in self.closed_trades if t.gross_pnl <= 0))`. -/
def grossLosses (closed : List ClosedTrade) : ℚ :=
  |((closed.filter (fun t => ¬ 0 < t.gross_pnl)).map ClosedTrade.gross_pnl).sum|

/-- Embedding of `PortfolioCalculator._calc_profit_factor` (the `999.0` sentinel is the
finite stand-in for an infinite ratio). -/
def calc_profit_factor (closed : List ClosedTrade) : PF :=
  if grossLosses closed = 0 then
    (if 0 < grossWins closed then PF.val 999 else PF.val 0)
  else PF.val (grossWins closed / grossLosses closed)

/-- Embedding of `PortfolioCalculator._calc_expectancy`. -/
def calc_expectancy (closed : List ClosedTrade) : ℚ :=
  if closed = [] then 0
  else
    let wins := (closed.filter (fun t => 0 < t.gross_pnl)).map ClosedTrade.gross_pnl
    let losses := (closed.filter (fun t => ¬ 0 < t.gross_pnl)).map (fun t => |t.gross_pnl|)
    let avg_win := if wins = [] then 0 else wins.sum / (wins.length : ℚ)
    let avg_loss := if losses = [] then 0 else losses.sum / (losses.length : ℚ)
    let win_rate := (wins.length : ℚ) / (closed.length : ℚ)
    win_rate * avg_win - (1 - win_rate) * avg_loss

/-- Local values computed by `_create_snapshot` before it attempts to build the
`PortfolioSnapshot` dataclass. -/
structure SnapCalc where
  total_market_value : ℚ
  invested : ℚ
  total_equity : ℚ
  adj_equity : ℚ
  drawdown : ℚ
  metrics : PerformanceMetrics
deriving DecidableEq

/-- Field names of the `PortfolioSnapshot` dataclass in
`py_portfolio_history/types.py` (all required, none has a default). -/
def portfolioSnapshotFields : List String :=
  ["date", "cash", "collateral", "invested", "market_value_total",
   "total_equity", "inflows", "drawdown", "performance", "positions"]

/-- Keyword arguments supplied at the `PortfolioSnapshot(...)` call in
`PortfolioCalculator._create_snapshot` (calculator.py lines 352-362). -/
def createSnapshotKwargNames : List String :=
  ["date", "cash", "invested", "market_value_total", "total_equity",
   "inflows", "drawdown", "performance", "positions"]

/-- Required dataclass fields that the `_create_snapshot` call site does not
supply. -/
def missingSnapshotFields : List String :=
  portfolioSnapshotFields.filter (fun f => ¬ createSnapshotKwargNames.contains f)

/-- Keyword arguments of the `PortfolioSnapshot(...)` call in
`_create_snapshot`, with their values. -/
structure SnapshotKwargs where
  date : ℕ
  cash : ℚ
  invested : ℚ
  market_value_total : ℚ
  total_equity : ℚ
  inflows : ℚ
  drawdown : ℚ
  performance : PerformanceMetrics
  positions : List (String × Position)

/-- Python dataclass construction semantics for `PortfolioSnapshot`: raise
`TypeError` when a required field is not among the supplied keyword
arguments.  The `.ok` branch is unreachable because `collateral` is missing
from the call-site kwargs; its `collateral := 0` placeholder is never
produced. -/
def mkPortfolioSnapshot (k : SnapshotKwargs) : Except PyError PortfolioSnapshot :=
  match missingSnapshotFields with
  | [] => .ok
      { date := k.date, cash := k.cash, collateral := 0, invested := k.invested,
        market_value_total := k.market_value_total, total_equity := k.total_equity,
        inflows := k.inflows, drawdown := k.drawdown, performance := k.performance,
        positions := k.positions }
  | f :: _ => .error (.typeError f)

/-- Embedding of `PortfolioCalculator._create_snapshot`: values the open positions, updates
the high-water mark, computes the drawdown and the metrics, then attempts the
`PortfolioSnapshot` construction (which raises `TypeError`).  The state
mutations made before the raise persist on the calculator object. -/
def create_snapshot (md : MarketData) (s : CalcState) (timestamp : ℕ) :
    CalcState × SnapCalc × Except PyError PortfolioSnapshot :=
  let positions' := s.open_positions.map (fun kv => (kv.1, valuePosition md timestamp kv.1 kv.2))
  let total_market_value := (positions'.map (fun kv => kv.2.market_value)).sum
  let invested := total_market_value
  let total_equity := s.cash_balance_eur + total_market_value
  let adj_equity := total_equity - s.inflows_total
  let hwm' := if s.high_water_mark < adj_equity then adj_equity else s.high_water_mark
  let dd := if 0 < hwm' then (hwm' - adj_equity) / hwm' * 100 else 0
  let metrics : PerformanceMetrics :=
    { trading_pnl := s.cum_trading_pnl, realized_pnl := s.cum_realized_pnl,
      accounting_pnl := s.cum_accounting_pnl, fees_total := s.cum_fees,
      inflows_total := s.inflows_total, win_rate := calc_win_rate s.closed_trades,
      profit_factor := calc_profit_factor s.closed_trades,
      expectancy := calc_expectancy s.closed_trades,
      closed_trades_count := s.closed_trades.length,
      open_positions_count := s.open_positions.length,
      total_transactions_count := s.transaction_count }
  let s' := { s with open_positions := positions', high_water_mark := hwm' }
  let sc : SnapCalc :=
    { total_market_value := total_market_value, invested := invested,
      total_equity := total_equity, adj_equity := adj_equity, drawdown := dd,
      metrics := metrics }
  (s', sc, mkPortfolioSnapshot
    { date := timestamp, cash := s.cash_balance_eur, invested := invested,
      market_value_total := total_market_value, total_equity := total_equity,
      inflows := s.inflows_total, drawdown := dd, performance := metrics,
      positions := positions' })

/-- Embedding of `PortfolioCalculator._process_trade`. -/
def process_trade (md : MarketData) (t : Transaction) (s : CalcState) :
    CalcState × SnapCalc × Except PyError PortfolioSnapshot :=
  let s0 := { s with transaction_count := s.transaction_count + 1 }
  let total_value := t.price * t.quantity
  let total_value_eur := convert_to_eur md total_value t.currency t.date
  let fees_eur := convert_to_eur md t.commission t.currency t.date
  let s1 := { s0 with cum_fees := s0.cum_fees + fees_eur }
  let s2 :=
    if t.type = "BUY" then
      handle_buy t { s1 with cash_balance_eur := s1.cash_balance_eur - (total_value_eur + fees_eur) }
    else if t.type = "SELL" then
      handle_sell_lifo md t
        { s1 with cash_balance_eur := s1.cash_balance_eur + (total_value_eur - fees_eur) }
    else s1
  create_snapshot md s2 t.date

/-- Embedding of `PortfolioCalculator._process_cash` (the `transaction_count` helper
increment is immediately reverted in the source). -/
def process_cash (md : MarketData) (t : Transaction) (s : CalcState) :
    CalcState × SnapCalc × Except PyError PortfolioSnapshot :=
  let amount_eur := convert_to_eur md t.quantity t.currency t.date
  let s1 :=
    if t.type = "DEPOSIT" then
      { s with cash_balance_eur := s.cash_balance_eur + amount_eur,
               inflows_total := s.inflows_total + amount_eur }
    else if t.type = "WITHDRAWAL" then
      { s with cash_balance_eur := s.cash_balance_eur - amount_eur,
               inflows_total := s.inflows_total - amount_eur }
    else s
  create_snapshot md s1 t.date

/-- Embedding of `PortfolioCalculator._process_dividend`. -/
def process_dividend (md : MarketData) (t : Transaction) (s : CalcState) :
    CalcState × SnapCalc × Except PyError PortfolioSnapshot :=
  let amount_eur := convert_to_eur md t.quantity t.currency t.date
  let s1 := { s with
    cash_balance_eur := s.cash_balance_eur + amount_eur
    inflows_total := s.inflows_total + amount_eur
    cum_accounting_pnl := s.cum_accounting_pnl + amount_eur }
  create_snapshot md s1 t.date

/-- Python `str.upper` on the ASCII type tags (a kernel-reducible stand-in
for `String.toUpper`, which maps each character to upper case). -/
def pyUpper (s : String) : String := String.mk (s.data.map Char.toUpper)

/-- Upper-casing the canonical tag `BUY` is the identity. -/
theorem pyUpper_BUY : pyUpper "BUY" = "BUY" := by decide

/-- Upper-casing the canonical tag `SELL` is the identity. -/
theorem pyUpper_SELL : pyUpper "SELL" = "SELL" := by decide

/-- Upper-casing the canonical tag `DEPOSIT` is the identity. -/
theorem pyUpper_DEPOSIT : pyUpper "DEPOSIT" = "DEPOSIT" := by decide

/-- Upper-casing the canonical tag `WITHDRAWAL` is the identity. -/
theorem pyUpper_WITHDRAWAL : pyUpper "WITHDRAWAL" = "WITHDRAWAL" := by decide

/-- Upper-casing the canonical tag `DIVIDEND` is the identity. -/
theorem pyUpper_DIVIDEND : pyUpper "DIVIDEND" = "DIVIDEND" := by decide

/-- Embedding of `PortfolioCalculator.process_transaction`: dispatch on the upper-cased
transaction type. -/
def process_transaction (md : MarketData) (s : CalcState) (t : Transaction) :
    CalcState × SnapCalc × Except PyError PortfolioSnapshot :=
  let tt := pyUpper t.type
  if tt = "BUY" ∨ tt = "SELL" then process_trade md t s
  else if tt = "DEPOSIT" ∨ tt = "WITHDRAWAL" then process_cash md t s
  else if tt = "DIVIDEND" then process_dividend md t s
  else create_snapshot md s t.date

/-- Replay of a transaction list through `process_transaction`, keeping only
the calculator state (each call raises before returning a snapshot, but the
state mutations persist on the object). -/
def replay (md : MarketData) (ts : List Transaction) : CalcState :=
  ts.foldl (fun s t => (process_transaction md s t).1) initState

end PortfolioHistory

namespace TradeLogic

/-- TransactionType enum of `alm_types.py`. -/
inductive TxType where
  | BUY | SELL | INFLOW | OUTFLOW | DIVIDEND
deriving DecidableEq

/-- Profit factor / float values shared with the calculator embedding. -/
abbrev PF := PortfolioHistory.PF

/-- MarketDataProvider for `trade_logic.py`: `get_fx_rate(pair, date)`. -/
structure MarketData where
  get_fx_rate : String → ℕ → ℚ

/-- RawEvent dataclass of `alm_types.py`. -/
structure RawEvent where
  event_id : String
  timestamp : ℕ
  type : TxType
  symbol : String
  currency : String
  quantity : ℚ
  price : ℚ
  amount : ℚ
  commission : ℚ
  proceeds : ℚ
deriving DecidableEq

/-- Open-position dict appended by `TradeProcessor._process_trade`
(`\x7b'price', 'date', 'qty', 'fx'\x7d`). -/
structure Lot where
  price : ℚ
  date : ℕ
  qty : ℚ
  fx : ℚ
deriving DecidableEq

/-- PortfolioState dataclass of `alm_types.py` (the fields `trade_logic.py`
uses). -/
structure PState where
  total_equity : ℚ
  cum_trading_pnl : ℚ
  cum_inflow : ℚ
  gross_profit : ℚ
  gross_loss : ℚ
  wins : ℕ
  losses : ℕ
  equity_high_watermark : ℚ
  adjusted_equity_high_watermark : ℚ
  open_positions : List (String × List Lot)
deriving DecidableEq

/-- Default-initialised PortfolioState. -/
def initPState : PState :=
  { total_equity := 0, cum_trading_pnl := 0, cum_inflow := 0, gross_profit := 0,
    gross_loss := 0, wins := 0, losses := 0, equity_high_watermark := 0,
    adjusted_equity_high_watermark := 0, open_positions := [] }

/-- ProcessedEvent dataclass of `alm_types.py` (defaults as in the source). -/
structure ProcessedEvent where
  event_id : String
  date : ℕ
  type : TxType
  symbol : Option String
  quantity : ℚ := 0
  entry_price : ℚ := 0
  exit_price : ℚ := 0
  fx_rate : ℚ := 1
  pnl : ℚ := 0
  equity_change : ℚ := 0
  total_equity : ℚ := 0
  equity_curve : ℚ := 0
  cum_inflow : ℚ := 0
  cum_win_rate : ℚ := 0
  cum_profit_factor : PF := PortfolioHistory.PF.val 0
  drawdown : ℚ := 0
deriving DecidableEq

/-- Accumulators of the closing loop in `_process_trade` (`total_pnl`,
`total_matched_cost_basis`, `total_matched_abs_qty`). -/
structure CloseAcc where
  total_pnl : ℚ
  cost_basis : ℚ
  abs_qty : ℚ
deriving DecidableEq

/-- Result of one iteration of the closing loop: `cont` fully consumed the
queue head, `stop` partially consumed it. -/
inductive CloseStep where
  | cont (remaining : ℚ) (acc : CloseAcc)
  | stop (remaining : ℚ) (lot : Lot) (acc : CloseAcc)
deriving DecidableEq

/-- Remaining trade quantity after the iteration. -/
def CloseStep.rem : CloseStep → ℚ
  | .cont r _ => r
  | .stop r _ _ => r

/-- Signed quantity taken out of the queue lot by the iteration. -/
def CloseStep.consumedLotQty (lot : Lot) : CloseStep → ℚ
  | .cont _ _ => lot.qty
  | .stop _ lot' _ => lot.qty - lot'.qty

/-- Accumulator after the iteration. -/
def CloseStep.acc : CloseStep → CloseAcc
  | .cont _ a => a
  | .stop _ _ a => a

/-- Body of the closing loop of `TradeProcessor._process_trade`
(`trade_logic.py` lines 107-219): full consumption pops the queue head,
partial consumption reduces it in place and zeroes the remainder. -/
def closeStep (raw : RawEvent) (fx_rate : ℚ) (remaining : ℚ) (lot : Lot)
    (acc : CloseAcc) : CloseStep :=
  if |lot.qty| ≤ |remaining| then
    let fill := -lot.qty
    let rem' := remaining - fill
    let units := |fill|
    let exit_val := raw.price * fx_rate
    let entry_val := lot.price * lot.fx
    let chunk := if 0 < lot.qty then (exit_val - entry_val) * units
      else (entry_val - exit_val) * units
    .cont rem'
      { total_pnl := acc.total_pnl + chunk,
        cost_basis := acc.cost_basis + lot.price * units,
        abs_qty := acc.abs_qty + units }
  else
    let fill := remaining
    let consumed := -fill
    let lot' := { lot with qty := lot.qty - consumed }
    let units := |consumed|
    let exit_val := raw.price * fx_rate
    let entry_val := lot'.price * lot.fx
    let is_long := if 0 < lot'.qty + consumed then 0 < lot'.qty else 0 < consumed
    let chunk := if is_long then (exit_val - entry_val) * units
      else (entry_val - exit_val) * units
    .stop 0 lot'
      { total_pnl := acc.total_pnl + chunk,
        cost_basis := acc.cost_basis + lot'.price * units,
        abs_qty := acc.abs_qty + units }

/-- Closing loop (`while remaining_qty != 0 and open_positions`).  A `stop`
step zeroes `remaining_qty`, so the re-checked guard fails and the loop
exits. -/
def closeLoop (raw : RawEvent) (fx_rate : ℚ) :
    ℚ → List Lot → CloseAcc → ℚ × List Lot × CloseAcc
  | remaining, [], acc => (remaining, [], acc)
  | remaining, lot :: rest, acc =>
      if remaining = 0 then (remaining, lot :: rest, acc)
      else
        match closeStep raw fx_rate remaining lot acc with
        | .cont rem' acc' => closeLoop raw fx_rate rem' rest acc'
        | .stop rem' lot' acc' => (rem', lot' :: rest, acc')

/-- Embedding of `TradeProcessor._update_metrics`: fills the cumulative fields of the
processed event and advances the adjusted-equity high-water mark. -/
def update_metrics (s : PState) (p : ProcessedEvent) : PState × ProcessedEvent :=
  let total_trades := s.wins + s.losses
  let win_rate := if 0 < total_trades then ((s.wins : ℚ) / (total_trades : ℚ)) * 100 else 0
  let pf := if s.gross_loss = 0
    then (if 0 < s.gross_profit then PortfolioHistory.PF.inf else PortfolioHistory.PF.val 0)
    else PortfolioHistory.PF.val (s.gross_profit / s.gross_loss)
  let adj_equity := s.total_equity - s.cum_inflow
  let hwm' := if s.adjusted_equity_high_watermark < adj_equity then adj_equity
    else s.adjusted_equity_high_watermark
  let dd := if 0 < hwm' then ((hwm' - adj_equity) / hwm') * 100 * (-1) else 0
  ({ s with adjusted_equity_high_watermark := hwm' },
   { p with
      total_equity := s.total_equity
      equity_curve := s.cum_trading_pnl
      cum_inflow := s.cum_inflow
      cum_win_rate := win_rate
      cum_profit_factor := pf
      drawdown := dd })

/-- Embedding of `TradeProcessor._process_trade` (`trade_logic.py` lines 40-252). -/
def process_trade (md : MarketData) (s : PState) (raw : RawEvent) :
    PState × ProcessedEvent :=
  let fx_rate := md.get_fx_rate (raw.currency ++ "EUR") raw.timestamp
  let lots := (PyDict.get? s.open_positions raw.symbol).getD []
  let is_closing :=
    match lots with
    | [] => false
    | l0 :: _ => (0 < raw.quantity ∧ l0.qty < 0) ∨ (raw.quantity < 0 ∧ 0 < l0.qty)
  let entry_p := if is_closing then 0 else raw.price
  let exit_p := if is_closing then raw.price else 0
  let p0 : ProcessedEvent :=
    { event_id := raw.event_id, date := raw.timestamp, type := raw.type,
      symbol := some raw.symbol, quantity := raw.quantity, entry_price := entry_p,
      exit_price := exit_p, fx_rate := fx_rate, equity_change := 0 }
  if is_closing then
    let res := closeLoop raw fx_rate raw.quantity lots
      { total_pnl := 0, cost_basis := 0, abs_qty := 0 }
    let remaining := res.1
    let acc := res.2.2
    let lots1 := if remaining = 0 then res.2.1
      else res.2.1 ++ [{ price := raw.price, date := raw.timestamp,
                         qty := remaining, fx := fx_rate }]
    let p1 := if 0 < acc.abs_qty
      then { p0 with entry_price := acc.cost_basis / acc.abs_qty, pnl := acc.total_pnl }
      else { p0 with pnl := acc.total_pnl }
    let sGross :=
      if 0 < acc.total_pnl then
        { s with gross_profit := s.gross_profit + acc.total_pnl, wins := s.wins + 1 }
      else if acc.total_pnl < 0 then
        { s with gross_loss := s.gross_loss + |acc.total_pnl|, losses := s.losses + 1 }
      else s
    let s1 := { sGross with
      cum_trading_pnl := sGross.cum_trading_pnl + acc.total_pnl
      total_equity := sGross.total_equity + acc.total_pnl
      open_positions := PyDict.set sGross.open_positions raw.symbol lots1 }
    update_metrics s1 { p1 with equity_change := p1.pnl }
  else
    let lots1 := lots ++ [{ price := raw.price, date := raw.timestamp,
                            qty := raw.quantity, fx := fx_rate }]
    let s1 := { s with open_positions := PyDict.set s.open_positions raw.symbol lots1 }
    update_metrics s1 { p0 with pnl := 0, equity_change := 0 }

/-- Embedding of `TradeProcessor._process_dividend`: equity rises by the amount, no inflow
tracking. -/
def process_dividend (s : PState) (raw : RawEvent) : PState × ProcessedEvent :=
  let p : ProcessedEvent :=
    { event_id := raw.event_id, date := raw.timestamp, type := raw.type,
      symbol := some raw.symbol, equity_change := raw.amount }
  update_metrics { s with total_equity := s.total_equity + raw.amount } p

/-- Embedding of `TradeProcessor._process_transfer`: equity and cumulative net inflow move
by the signed amount. -/
def process_transfer (s : PState) (raw : RawEvent) : PState × ProcessedEvent :=
  let p : ProcessedEvent :=
    { event_id := raw.event_id, date := raw.timestamp, type := raw.type,
      symbol := none, equity_change := raw.amount }
  let s1 := { s with total_equity := s.total_equity + raw.amount }
  let s2 :=
    if raw.type = TxType.INFLOW then { s1 with cum_inflow := s1.cum_inflow + raw.amount }
    else if raw.type = TxType.OUTFLOW then { s1 with cum_inflow := s1.cum_inflow + raw.amount }
    else s1
  update_metrics s2 p

/-- Embedding of `TradeProcessor.process_event`: dispatch by event type. -/
def process_event (md : MarketData) (s : PState) (raw : RawEvent) :
    PState × ProcessedEvent :=
  if raw.type = TxType.BUY ∨ raw.type = TxType.SELL then process_trade md s raw
  else if raw.type = TxType.DIVIDEND then process_dividend s raw
  else process_transfer s raw

end TradeLogic

namespace Fifo

/-- TransactionType enum of `py_portfolio_history/domain.py`. -/
inductive FTxType where
  | BUY | SELL | DEPOSIT | WITHDRAWAL | DIVIDEND
deriving DecidableEq

/-- TradeEvent dataclass of `py_portfolio_history/domain.py` (the commission
and quantity fields of queued events are mutated in place on a partial
close). -/
structure TradeEvent where
  id : String
  date : ℕ
  time : String
  symbol : String
  isin : String
  type : FTxType
  quantity : ℚ
  price : ℚ
  commission : ℚ
  currency : String
deriving DecidableEq

/-- ClosedTrade dataclass of `py_portfolio_history/domain.py`. -/
structure FClosedTrade where
  entry_id : String
  exit_id : String
  symbol : String
  quantity : ℚ
  entry_date : ℕ
  exit_date : ℕ
  entry_price : ℚ
  exit_price : ℚ
  gross_pnl : ℚ
  fees : ℚ
  real_pnl : ℚ
  holding_days : ℤ
  winning_trade : Bool
deriving DecidableEq

/-- Mutable state of `FifoEngine`. -/
structure EngineState where
  open_tranches : List (String × List TradeEvent)
  closed_trades : List FClosedTrade
deriving DecidableEq

/-- Embedding of `FifoEngine.__init__`. -/
def initEngine : EngineState := { open_tranches := [], closed_trades := [] }

/-- Result of one iteration of the FIFO matching loop. -/
inductive FifoStep where
  | cont (remaining : ℚ) (closed : FClosedTrade)
  | stop (remaining : ℚ) (tranche : TradeEvent) (closed : FClosedTrade)
deriving DecidableEq

/-- Remaining sell quantity after the iteration. -/
def FifoStep.rem : FifoStep → ℚ
  | .cont r _ => r
  | .stop r _ _ => r

/-- Quantity taken out of the queue head by the iteration. -/
def FifoStep.consumedLotQty (buy : TradeEvent) : FifoStep → ℚ
  | .cont _ _ => buy.quantity
  | .stop _ tr' _ => buy.quantity - tr'.quantity

/-- Body of the FIFO matching loop of `FifoEngine.process_trade`
(`fifo_engine.py` lines 40-92). -/
def fifoStep (trade : TradeEvent) (remaining : ℚ) (buy : TradeEvent) : FifoStep :=
  let matchQty := min remaining buy.quantity
  let pct_of_buy := if 0 < buy.quantity then matchQty / buy.quantity else 0
  let buy_fee_part := buy.commission * pct_of_buy
  let sell_fee_part := trade.commission * (matchQty / trade.quantity)
  let gross := (trade.price - buy.price) * matchQty
  let fees := buy_fee_part + sell_fee_part
  let real := gross + fees
  let closed : FClosedTrade :=
    { entry_id := buy.id, exit_id := trade.id, symbol := trade.symbol,
      quantity := matchQty, entry_date := buy.date, exit_date := trade.date,
      entry_price := buy.price, exit_price := trade.price, gross_pnl := gross,
      fees := fees, real_pnl := real,
      holding_days := (trade.date : ℤ) - (buy.date : ℤ),
      winning_trade := decide (0 < real) }
  if matchQty = buy.quantity then .cont (remaining - matchQty) closed
  else .stop (remaining - matchQty)
    { buy with quantity := buy.quantity - matchQty,
               commission := buy.commission - buy_fee_part } closed

/-- FIFO matching loop (`while remaining_qty > 0 and queue`); on a `stop`
step the match equalled `remaining`, so the re-checked guard fails. -/
def fifoLoop (trade : TradeEvent) :
    ℚ → List TradeEvent → List FClosedTrade → ℚ × List TradeEvent × List FClosedTrade
  | remaining, [], cs => (remaining, [], cs)
  | remaining, buy :: rest, cs =>
      if 0 < remaining then
        match fifoStep trade remaining buy with
        | .cont rem' c => fifoLoop trade rem' rest (cs ++ [c])
        | .stop rem' tr' c => (rem', tr' :: rest, cs ++ [c])
      else (remaining, buy :: rest, cs)

/-- Embedding of `FifoEngine.process_trade`: BUY appends a tranche; SELL drains the FIFO
queue and silently ignores (`pass`) any remaining over-sold quantity. -/
def process_trade (s : EngineState) (trade : TradeEvent) : EngineState :=
  match trade.type with
  | .BUY =>
      let queue' := ((PyDict.get? s.open_tranches trade.symbol).getD []) ++ [trade]
      { s with open_tranches := PyDict.set s.open_tranches trade.symbol queue' }
  | .SELL =>
      (match PyDict.get? s.open_tranches trade.symbol with
       | none => s
       | some queue =>
           let res := fifoLoop trade trade.quantity queue []
           { open_tranches := PyDict.set s.open_tranches trade.symbol res.2.1,
             closed_trades := s.closed_trades ++ res.2.2 })
  | _ => s

end Fifo

namespace PortfolioXml

/-- MarketData of `portfolio.py`: FX lookup can fail (returns `None`). -/
structure MarketData where
  get_fx_rate : String → ℕ → Option ℚ

/-- Position class of `portfolio.py`. -/
structure Position where
  symbol : String
  currency : String
  isin : String
  quantity : ℚ
  avg_entry_price : ℚ
  invested_capital : ℚ
  invested_capital_eur : ℚ
deriving DecidableEq

/-- Embedding of `Position.__init__`. -/
def newPosition (symbol currency isin : String) : Position :=
  { symbol := symbol, currency := currency, isin := isin, quantity := 0,
    avg_entry_price := 0, invested_capital := 0, invested_capital_eur := 0 }

/-- Portfolio class of `portfolio.py`. -/
structure Portfolio where
  positions : List (String × Position)
  cash_balance : List (String × ℚ)
  realized_pnl_eur : ℚ
  dividends_eur : ℚ
  inflow_eur : ℚ
deriving DecidableEq

/-- Near-zero cleanup at the end of `Portfolio._execute_trade`. -/
def cleanup (p : Position) : Position :=
  if |p.quantity| < 1 / 1000000 then
    { p with quantity := 0, invested_capital := 0, invested_capital_eur := 0,
             avg_entry_price := 0 }
  else p

/-- Embedding of `Portfolio._execute_trade`: updates one position and returns the realized
PnL (EUR) contributed by the trade.  The Python `if not fx_rate` fallback
treats both `None` and a zero rate as missing. -/
def execute_trade (md : MarketData) (pos : Position) (trade_quantity trade_price commission : ℚ)
    (trade_date start_date : ℕ) : Position × ℚ :=
  let fx_rate :=
    match md.get_fx_rate (pos.currency ++ "EUR") trade_date with
    | some r => if r = 0 then 1 else r
    | none => 1
  let is_closing := pos.quantity * trade_quantity < 0
  if ¬ is_closing then
    let native_cost := trade_quantity * trade_price + commission
    let eur_cost := native_cost * fx_rate
    let q' := pos.quantity + trade_quantity
    let pos1 := { pos with
      invested_capital := pos.invested_capital + native_cost
      invested_capital_eur := pos.invested_capital_eur + eur_cost
      quantity := q' }
    let pos2 := if q' ≠ 0
      then { pos1 with avg_entry_price := |pos1.invested_capital / q'| }
      else pos1
    (cleanup pos2, 0)
  else
    let pnl_delta :=
      if start_date ≤ trade_date then
        (if trade_quantity < 0 then
          ((|trade_quantity| * trade_price) - commission
            - pos.avg_entry_price * |trade_quantity|) * fx_rate
        else
          (pos.avg_entry_price * trade_quantity
            - (trade_quantity * trade_price + commission)) * fx_rate)
      else 0
    let pos1 :=
      if pos.invested_capital ≠ 0 then
        let cost_sold := pos.avg_entry_price * |trade_quantity|
        let proportion_sold := cost_sold / pos.invested_capital
        { pos with
          invested_capital_eur := pos.invested_capital_eur
            - pos.invested_capital_eur * proportion_sold
          invested_capital := pos.invested_capital - cost_sold }
      else pos
    let pos2 := { pos1 with quantity := pos1.quantity + trade_quantity }
    (cleanup pos2, pnl_delta)

/-- Embedding of `Portfolio.process_trade` (already-parsed XML fields passed as
arguments): cash credited with the raw proceeds, then either a flip split
into a closing and an opening `_execute_trade` call, or a single call. -/
def process_trade (md : MarketData) (s : Portfolio) (symbol currency isin : String)
    (quantity price proceeds commission : ℚ) (trade_date start_date : ℕ) : Portfolio :=
  let pos0 := (PyDict.get? s.positions symbol).getD (newPosition symbol currency isin)
  let pos := if pos0.isin = "" ∧ isin ≠ "" then { pos0 with isin := isin } else pos0
  let cash' := PyDict.set s.cash_balance currency
    (((PyDict.get? s.cash_balance currency).getD 0) + proceeds)
  let new_quantity := pos.quantity + quantity
  let is_flip := pos.quantity * new_quantity < 0
  if is_flip then
    let closing_quantity := -pos.quantity
    let share := |closing_quantity / quantity|
    let closing_commission := commission * share
    let r1 := execute_trade md pos closing_quantity price closing_commission trade_date start_date
    let opening_quantity := new_quantity
    let opening_commission := commission - closing_commission
    let r2 := execute_trade md r1.1 opening_quantity price opening_commission trade_date start_date
    { s with positions := PyDict.set s.positions symbol r2.1
             cash_balance := cash'
             realized_pnl_eur := s.realized_pnl_eur + r1.2 + r2.2 }
  else
    let r := execute_trade md pos quantity price commission trade_date start_date
    { s with positions := PyDict.set s.positions symbol r.1
             cash_balance := cash'
             realized_pnl_eur := s.realized_pnl_eur + r.2 }

end PortfolioXml

namespace PyPortfolio

/-- Open-lot dict of `py_portfolio/trade_logic.py`
(`\x7b'price', 'date', 'qty', 'fx', 'fees_unit'\x7d`). -/
structure Lot where
  price : ℚ
  date : ℕ
  qty : ℚ
  fx : ℚ
  fees_unit : ℚ
deriving DecidableEq

/-- Per-event PnL accumulators of the closing branch (`pnl_trading`,
`pnl_accounting`, `consumed_opening_fees`). -/
structure PyAcc where
  pnl_trading : ℚ
  pnl_accounting : ℚ
  consumed_opening_fees : ℚ
deriving DecidableEq

/-- Result of one iteration of the closing loop. -/
inductive PyStep where
  | cont (remaining : ℚ) (acc : PyAcc)
  | stop (remaining : ℚ) (lot : Lot) (acc : PyAcc)
deriving DecidableEq

/-- Remaining trade quantity after the iteration. -/
def PyStep.rem : PyStep → ℚ
  | .cont r _ => r
  | .stop r _ _ => r

/-- Accumulators after the iteration. -/
def PyStep.acc : PyStep → PyAcc
  | .cont _ a => a
  | .stop _ _ a => a

/-- Signed quantity taken out of the queue lot by the iteration. -/
def PyStep.consumedLotQty (lot : Lot) : PyStep → ℚ
  | .cont _ _ => lot.qty
  | .stop _ lot' _ => lot.qty - lot'.qty

/-- Body of the closing loop of `TradeProcessor._process_trade` in
`py_portfolio/trade_logic.py` (lines 162-219): the Trading tier uses raw
prices only, the Accounting tier multiplies through entry/exit FX rates. -/
def closeStep (raw_price fx_rate : ℚ) (remaining : ℚ) (lot : Lot) (acc : PyAcc) : PyStep :=
  if |lot.qty| ≤ |remaining| then
    let fill := -lot.qty
    let rem' := remaining - fill
    let units := |fill|
    let entry_p := lot.price
    let exit_p := raw_price
    let entry_fx := lot.fx
    let exit_fx := fx_rate
    let acc' :=
      if 0 < lot.qty then
        { pnl_trading := acc.pnl_trading + (exit_p - entry_p) * units,
          pnl_accounting := acc.pnl_accounting
            + ((exit_p * exit_fx) - (entry_p * entry_fx)) * units,
          consumed_opening_fees := acc.consumed_opening_fees + lot.fees_unit * units }
      else
        { pnl_trading := acc.pnl_trading + (entry_p - exit_p) * units,
          pnl_accounting := acc.pnl_accounting
            + ((entry_p * entry_fx) - (exit_p * exit_fx)) * units,
          consumed_opening_fees := acc.consumed_opening_fees + lot.fees_unit * units }
    .cont rem' acc'
  else
    let fill := remaining
    let consumed := -fill
    let lot' := { lot with qty := lot.qty - consumed }
    let units := |fill|
    let entry_p := lot'.price
    let exit_p := raw_price
    let entry_fx := lot'.fx
    let exit_fx := fx_rate
    let is_long := 0 < consumed
    let acc' :=
      if is_long then
        { pnl_trading := acc.pnl_trading + (exit_p - entry_p) * units,
          pnl_accounting := acc.pnl_accounting
            + ((exit_p * exit_fx) - (entry_p * entry_fx)) * units,
          consumed_opening_fees := acc.consumed_opening_fees + lot'.fees_unit * units }
      else
        { pnl_trading := acc.pnl_trading + (entry_p - exit_p) * units,
          pnl_accounting := acc.pnl_accounting
            + ((entry_p * entry_fx) - (exit_p * exit_fx)) * units,
          consumed_opening_fees := acc.consumed_opening_fees + lot'.fees_unit * units }
    .stop 0 lot' acc'

/-- Closing loop (`while remaining_qty != 0 and open_positions`). -/
def closeLoop (raw_price fx_rate : ℚ) :
    ℚ → List Lot → PyAcc → ℚ × List Lot × PyAcc
  | remaining, [], acc => (remaining, [], acc)
  | remaining, lot :: rest, acc =>
      if remaining = 0 then (remaining, lot :: rest, acc)
      else
        match closeStep raw_price fx_rate remaining lot acc with
        | .cont rem' acc' => closeLoop raw_price fx_rate rem' rest acc'
        | .stop rem' lot' acc' => (rem', lot' :: rest, acc')

end PyPortfolio

namespace PortfolioHistory

/-- Market data used for concrete EUR-only scenarios (prices irrelevant). -/
def mdZero : MarketData :=
  { get_market_price := fun _ _ _ => 0, get_fx_rate := fun _ _ _ => 1 }

/-- First transaction of the repository's own short-collateral integration
test (`tests/integration/test_short_collateral.py`): Buy 10 @ 100 EUR. -/
def txBuy10 : Transaction :=
  { id := "1", date := 1, type := "BUY", symbol := "TEST", isin := "TEST",
    quantity := 10, price := 100, commission := 0, currency := "EUR" }

/-- Second transaction of the short-collateral test: Sell 100 @ 110 EUR
(closes the 10 long, should open a 90 short whose 9900 proceeds the test
expects in `collateral_balance_eur`). -/
def txSell100 : Transaction :=
  { id := "2", date := 2, type := "SELL", symbol := "TEST", isin := "TEST",
    quantity := 100, price := 110, commission := 0, currency := "EUR" }

/-- Construction of `PortfolioSnapshot` in `_create_snapshot` always raises
`TypeError` for the missing required `collateral` field. -/
theorem mkPortfolioSnapshot_err (k : SnapshotKwargs) :
    mkPortfolioSnapshot k = Except.error (PyError.typeError "collateral") := rfl

/-- The snapshot component of `_create_snapshot` is always the `TypeError`. -/
theorem create_snapshot_err (md : MarketData) (s : CalcState) (ts : ℕ) :
    (create_snapshot md s ts).2.2 = Except.error (PyError.typeError "collateral") := rfl

end PortfolioHistory

/-- C3: every transaction processed by `PortfolioCalculator.process_transaction`
ends in a `TypeError` instead of a snapshot, because `_create_snapshot`
constructs `PortfolioSnapshot` without the required `collateral` field; hence
no replay through this calculator completes normally. -/
theorem claim_C3_process_transaction_raises_TypeError
    (md : PortfolioHistory.MarketData) (s : PortfolioHistory.CalcState)
    (t : PortfolioHistory.Transaction) :
    (PortfolioHistory.process_transaction md s t).2.2 =
      Except.error (PortfolioHistory.PyError.typeError "collateral") := by
  simp only [PortfolioHistory.process_transaction]
  split
  · simp only [PortfolioHistory.process_trade]
    exact PortfolioHistory.create_snapshot_err ..
  · split
    · simp only [PortfolioHistory.process_cash]
      exact PortfolioHistory.create_snapshot_err ..
    · split
      · simp only [PortfolioHistory.process_dividend]
        exact PortfolioHistory.create_snapshot_err ..
      · exact PortfolioHistory.create_snapshot_err ..

/-- C1: counter to the spec and to the repository's own integration test
`tests/integration/test_short_collateral.py` (which expects cash `100` and
`collateral_balance_eur = 9900` after Buy 10 @ 100 then Sell 100 @ 110), the
calculator credits the entire sell proceeds — including the 9900 from the
short-opened 90 units — to the cash balance (`-1000 + 11000 = 10000`),
maintains no collateral balance at all, and opens no short position for the
flip remainder. -/
theorem claim_C1_short_proceeds_go_to_cash_not_collateral :
    (PortfolioHistory.replay PortfolioHistory.mdZero
      [PortfolioHistory.txBuy10, PortfolioHistory.txSell100]).cash_balance_eur = 10000 ∧
    PyDict.get? (PortfolioHistory.replay PortfolioHistory.mdZero
      [PortfolioHistory.txBuy10, PortfolioHistory.txSell100]).open_positions "TEST" = none ∧
    (PortfolioHistory.replay PortfolioHistory.mdZero
      [PortfolioHistory.txBuy10, PortfolioHistory.txSell100]).cum_trading_pnl = 100 := by
  refine ⟨?_, ?_, ?_⟩ <;>
  norm_num [PortfolioHistory.replay, PortfolioHistory.process_transaction,
    PortfolioHistory.process_trade, PortfolioHistory.pyUpper_BUY,
    PortfolioHistory.pyUpper_SELL,
    PortfolioHistory.handle_buy, PortfolioHistory.handle_sell_lifo,
    PortfolioHistory.sellLoop, PortfolioHistory.sellStep,
    PortfolioHistory.convert_to_eur, PortfolioHistory.create_snapshot,
    PortfolioHistory.initState, PortfolioHistory.txBuy10, PortfolioHistory.txSell100,
    PortfolioHistory.mdZero, PyDict.get?, PyDict.set, PyDict.erase,
    PortfolioHistory.totalCost, PortfolioHistory.sumTrancheQty,
    PortfolioHistory.valuePosition] <;> rfl

namespace PortfolioHistory

/-- Snapshot creation only ever raises the high-water mark
(`if adj_equity > high_water_mark: high_water_mark = adj_equity`). -/
theorem hwm_le_create_snapshot (md : MarketData) (s : CalcState) (ts : ℕ) :
    s.high_water_mark ≤ (create_snapshot md s ts).1.high_water_mark := by
  unfold create_snapshot
  simp only
  split
  · next h => exact le_of_lt h
  · exact le_refl _

/-- The method `_handle_buy` does not touch the high-water mark. -/
theorem handle_buy_hwm (t : Transaction) (s : CalcState) :
    (handle_buy t s).high_water_mark = s.high_water_mark := rfl

/-- The method `_handle_sell_lifo` does not touch the high-water mark. -/
theorem handle_sell_lifo_hwm (md : MarketData) (t : Transaction) (s : CalcState) :
    (handle_sell_lifo md t s).high_water_mark = s.high_water_mark := by
  unfold handle_sell_lifo
  split <;> rfl

/-- The method `_process_trade` never lowers the high-water mark. -/
theorem hwm_le_process_trade (md : MarketData) (t : Transaction) (s : CalcState) :
    s.high_water_mark ≤ (process_trade md t s).1.high_water_mark := by
  unfold process_trade
  simp only
  refine le_trans (le_of_eq ?_) (hwm_le_create_snapshot ..)
  split
  · rw [handle_buy_hwm]
  · split
    · rw [handle_sell_lifo_hwm]
    · rfl

/-- The method `_process_cash` never lowers the high-water mark. -/
theorem hwm_le_process_cash (md : MarketData) (t : Transaction) (s : CalcState) :
    s.high_water_mark ≤ (process_cash md t s).1.high_water_mark := by
  unfold process_cash
  simp only
  refine le_trans (le_of_eq ?_) (hwm_le_create_snapshot ..)
  split
  · rfl
  · split <;> rfl

/-- The method `_process_dividend` never lowers the high-water mark. -/
theorem hwm_le_process_dividend (md : MarketData) (t : Transaction) (s : CalcState) :
    s.high_water_mark ≤ (process_dividend md t s).1.high_water_mark := by
  unfold process_dividend
  exact hwm_le_create_snapshot ..

end PortfolioHistory

namespace TradeLogic

/-- The method `_update_metrics` only ever raises the adjusted-equity high-water mark. -/
theorem hwm_le_update_metrics (s : PState) (p : ProcessedEvent) :
    s.adjusted_equity_high_watermark ≤
      (update_metrics s p).1.adjusted_equity_high_watermark := by
  unfold update_metrics
  simp only
  split
  · next h => exact le_of_lt h
  · exact le_refl _

/-- The method `_process_trade` never lowers the adjusted-equity high-water mark. -/
theorem tl_hwm_le_process_trade (md : MarketData) (s : PState) (raw : RawEvent) :
    s.adjusted_equity_high_watermark ≤
      (process_trade md s raw).1.adjusted_equity_high_watermark := by
  unfold process_trade
  simp only
  split
  · refine le_trans (le_of_eq ?_) (hwm_le_update_metrics _ _)
    split <;> split <;> rfl
  · refine le_trans (le_of_eq ?_) (hwm_le_update_metrics _ _)
    rfl

/-- The method `_process_dividend` never lowers the adjusted-equity high-water mark. -/
theorem tl_hwm_le_process_dividend (s : PState) (raw : RawEvent) :
    s.adjusted_equity_high_watermark ≤
      (process_dividend s raw).1.adjusted_equity_high_watermark := by
  unfold process_dividend
  exact hwm_le_update_metrics ..

/-- The method `_process_transfer` never lowers the adjusted-equity high-water mark. -/
theorem hwm_le_process_transfer (s : PState) (raw : RawEvent) :
    s.adjusted_equity_high_watermark ≤
      (process_transfer s raw).1.adjusted_equity_high_watermark := by
  unfold process_transfer
  simp only
  refine le_trans (le_of_eq ?_) (hwm_le_update_metrics ..)
  split
  · rfl
  · split <;> rfl

end TradeLogic

/-- C9: in both engines the high-water mark is monotonically non-decreasing:
for every state and every processed event, the (adjusted-equity) high-water
mark after the event is at least its value before the event; hence it is
non-decreasing across any replayed event sequence. -/
theorem claim_C9_high_water_mark_monotone :
    (∀ (md : PortfolioHistory.MarketData) (s : PortfolioHistory.CalcState)
       (t : PortfolioHistory.Transaction),
       s.high_water_mark ≤
         (PortfolioHistory.process_transaction md s t).1.high_water_mark) ∧
    (∀ (md : TradeLogic.MarketData) (s : TradeLogic.PState) (e : TradeLogic.RawEvent),
       s.adjusted_equity_high_watermark ≤
         (TradeLogic.process_event md s e).1.adjusted_equity_high_watermark) := by
  constructor
  · intro md s t
    unfold PortfolioHistory.process_transaction
    simp only
    split
    · exact PortfolioHistory.hwm_le_process_trade ..
    · split
      · exact PortfolioHistory.hwm_le_process_cash ..
      · split
        · exact PortfolioHistory.hwm_le_process_dividend ..
        · exact PortfolioHistory.hwm_le_create_snapshot ..
  · intro md s e
    unfold TradeLogic.process_event
    split
    · exact TradeLogic.tl_hwm_le_process_trade ..
    · split
      · exact TradeLogic.tl_hwm_le_process_dividend ..
      · exact TradeLogic.hwm_le_process_transfer ..

namespace PyDict

/-- Successful lookup yields a member of the dict. -/
theorem get?_mem {α : Type} {l : List (String × α)} {key : String} {v : α}
    (h : get? l key = some v) : (key, v) ∈ l := by
  induction l with
  | nil => simp [get?] at h
  | cons kw rest ih =>
      rcases kw with ⟨k, w⟩
      by_cases hk : k = key
      · rw [get?, if_pos hk] at h
        injection h with h1
        subst hk
        subst h1
        exact List.mem_cons_self _ _
      · rw [get?, if_neg hk] at h
        exact List.mem_cons_of_mem _ (ih h)

end PyDict

namespace PortfolioHistory

/-- Lot-conservation invariant of the spec: for every instrument the
aggregate position quantity equals the sum of its queued tranche
quantities. -/
def posInvariant (s : CalcState) : Prop :=
  ∀ kv ∈ s.open_positions, kv.2.quantity = sumTrancheQty kv.2.tranches

/-- Appending a tranche adds its quantity to the queue sum. -/
theorem sumTrancheQty_append (l : List Tranche) (tr : Tranche) :
    sumTrancheQty (l ++ [tr]) = sumTrancheQty l + tr.quantity := by
  simp [sumTrancheQty]

/-- Reversing the queue leaves the quantity sum unchanged. -/
theorem sumTrancheQty_reverse (l : List Tranche) :
    sumTrancheQty l.reverse = sumTrancheQty l := by
  simp only [sumTrancheQty]
  rw [List.map_reverse, List.sum_reverse]

/-- On the `cont` outcome of a matching iteration the whole tranche was
consumed: the match equalled the tranche quantity. -/
theorem sellStep_cont_rem (md : MarketData) (t : Transaction) (rem : ℚ) (tr : Tranche)
    (acc : SellAcc) (rem' : ℚ) (acc' : SellAcc)
    (h : sellStep md t rem tr acc = .cont rem' acc') :
    rem' = rem - tr.quantity := by
  unfold sellStep at h
  dsimp only at h
  split at h
  · next hm =>
      injection h with h1 h2
      rw [← h1, hm]
  · exact absurd h (by simp)

/-- On the `stop` outcome of a matching iteration the match was
`min rem tr.quantity`, removed from both the remaining trade quantity and the
tranche. -/
theorem sellStep_stop_rem (md : MarketData) (t : Transaction) (rem : ℚ) (tr : Tranche)
    (acc : SellAcc) (rem' : ℚ) (tr' : Tranche) (acc' : SellAcc)
    (h : sellStep md t rem tr acc = .stop rem' tr' acc') :
    rem' = rem - min rem tr.quantity ∧
    tr'.quantity = tr.quantity - min rem tr.quantity := by
  unfold sellStep at h
  dsimp only at h
  split at h
  · exact absurd h (by simp)
  · injection h with h1 h2 h3
    constructor
    · rw [← h1]
    · rw [← h2]

/-- Quantity conservation of the LIFO matching loop: the queue sum drops by
exactly the consumed trade quantity. -/
theorem sellLoop_sum (md : MarketData) (t : Transaction) :
    ∀ (l : List Tranche) (rem : ℚ) (acc : SellAcc),
      sumTrancheQty (sellLoop md t rem l acc).2.1 =
        sumTrancheQty l - (rem - (sellLoop md t rem l acc).1) := by
  intro l
  induction l with
  | nil => intro rem acc; simp [sellLoop]
  | cons tr rest ih =>
      intro rem acc
      by_cases hrem : 0 < rem
      · rw [sellLoop, if_pos hrem]
        rcases hs : sellStep md t rem tr acc with ⟨rem', acc'⟩ | ⟨rem', tr', acc'⟩
        · have hr := sellStep_cont_rem md t rem tr acc rem' acc' hs
          simp only
          rw [ih rem' acc', hr]
          simp [sumTrancheQty]
          ring
        · have hr := sellStep_stop_rem md t rem tr acc rem' tr' acc' hs
          simp only
          simp [sumTrancheQty, hr.1, hr.2]
          ring
      · rw [sellLoop, if_neg hrem]
        simp

end PortfolioHistory

namespace PortfolioHistory

/-- Valuation during snapshot creation does not change a position's
quantity. -/
theorem valuePosition_quantity (md : MarketData) (ts : ℕ) (sym : String) (p : Position) :
    (valuePosition md ts sym p).quantity = p.quantity := rfl

/-- Valuation during snapshot creation does not change a position's tranche
queue. -/
theorem valuePosition_tranches (md : MarketData) (ts : ℕ) (sym : String) (p : Position) :
    (valuePosition md ts sym p).tranches = p.tranches := rfl

/-- The method `_handle_buy` preserves lot conservation. -/
theorem handle_buy_inv (t : Transaction) (s : CalcState) (h : posInvariant s) :
    posInvariant (handle_buy t s) := by
  intro kv hm
  unfold handle_buy at hm
  dsimp only at hm
  rcases PyDict.mem_set _ _ _ kv hm with hk | hk
  · subst hk
    dsimp only
    rcases hg : PyDict.get? s.open_positions t.symbol with _ | p
    · simp only [hg, Option.getD_none]
      simp [sumTrancheQty_append, sumTrancheQty]
    · have hp := h _ (PyDict.get?_mem hg)
      simp only [hg, Option.getD_some]
      simp only [sumTrancheQty_append]
      rw [hp]
  · exact h kv hk

/-- The method `_handle_sell_lifo` preserves lot conservation. -/
theorem handle_sell_lifo_inv (md : MarketData) (t : Transaction) (s : CalcState)
    (h : posInvariant s) : posInvariant (handle_sell_lifo md t s) := by
  intro kv hm
  unfold handle_sell_lifo at hm
  rcases hg : PyDict.get? s.open_positions t.symbol with _ | pos
  · rw [hg] at hm
    exact h kv hm
  · rw [hg] at hm
    dsimp only at hm
    split at hm
    · exact h kv (PyDict.mem_erase _ _ kv hm)
    · rcases PyDict.mem_set _ _ _ kv hm with hk | hk
      · subst hk
        dsimp only
        have hp := h _ (PyDict.get?_mem hg)
        have hs := sellLoop_sum md t pos.tranches.reverse t.quantity
          { trading := 0, realized := 0, accounting := 0, closed := [], feesRemoved := 0 }
        rw [sumTrancheQty_reverse] at hs
        rw [sumTrancheQty_reverse, hs, hp]
      · exact h kv hk

/-- Snapshot creation preserves lot conservation (valuation touches only
price fields). -/
theorem create_snapshot_inv (md : MarketData) (s : CalcState) (ts : ℕ)
    (h : posInvariant s) : posInvariant (create_snapshot md s ts).1 := by
  intro kv hm
  unfold create_snapshot at hm
  dsimp only at hm
  rcases List.mem_map.1 hm with ⟨kv0, hk0, heq⟩
  rw [← heq]
  show (valuePosition md ts kv0.1 kv0.2).quantity
    = sumTrancheQty (valuePosition md ts kv0.1 kv0.2).tranches
  rw [valuePosition_quantity, valuePosition_tranches]
  exact h kv0 hk0

/-- The method `process_transaction` preserves lot conservation. -/
theorem process_transaction_inv (md : MarketData) (s : CalcState) (t : Transaction)
    (h : posInvariant s) : posInvariant (process_transaction md s t).1 := by
  unfold process_transaction
  simp only
  split
  · unfold process_trade
    simp only
    apply create_snapshot_inv
    split
    · apply handle_buy_inv
      exact fun kv hm => h kv hm
    · split
      · apply handle_sell_lifo_inv
        exact fun kv hm => h kv hm
      · exact fun kv hm => h kv hm
  · split
    · unfold process_cash
      simp only
      apply create_snapshot_inv
      split
      · exact fun kv hm => h kv hm
      · split
        · exact fun kv hm => h kv hm
        · exact fun kv hm => h kv hm
    · split
      · unfold process_dividend
        simp only
        apply create_snapshot_inv
        exact fun kv hm => h kv hm
      · exact create_snapshot_inv md s t.date h

end PortfolioHistory

/-- C2: for every market-data provider and every input event sequence,
immediately after each processed event every instrument's aggregate position
quantity equals the sum of the remaining quantities of the tranches in its
queue (`position.quantity == sum(lot.quantity for lot in queue)`). -/
theorem claim_C2_position_quantity_equals_queue_sum
    (md : PortfolioHistory.MarketData) (ts : List PortfolioHistory.Transaction) :
    PortfolioHistory.posInvariant (PortfolioHistory.replay md ts) := by
  unfold PortfolioHistory.replay
  have step : ∀ (l : List PortfolioHistory.Transaction) (s : PortfolioHistory.CalcState),
      PortfolioHistory.posInvariant s →
      PortfolioHistory.posInvariant
        (l.foldl (fun s t => (PortfolioHistory.process_transaction md s t).1) s) := by
    intro l
    induction l with
    | nil => intro s hs; exact hs
    | cons t rest ih =>
        intro s hs
        exact ih _ (PortfolioHistory.process_transaction_inv md s t hs)
  apply step
  intro kv hm
  simp [PortfolioHistory.initState] at hm

/-- C10: a dividend event of EUR-converted amount `a` raises the cash
balance, the cumulative inflows, and the cumulative accounting PnL by exactly
`a`, leaves trading and realized PnL, closed trades, and the open positions
untouched, and — because total equity and inflows rise by the same amount —
produces the same adjusted equity, the same high-water mark, and the same
drawdown as a bare snapshot of the unmodified state at the same date. -/
theorem claim_C10_dividend_frame_effect (md : PortfolioHistory.MarketData)
    (s : PortfolioHistory.CalcState) (t : PortfolioHistory.Transaction) :
    (PortfolioHistory.process_dividend md t s).1.cash_balance_eur =
      s.cash_balance_eur + PortfolioHistory.convert_to_eur md t.quantity t.currency t.date ∧
    (PortfolioHistory.process_dividend md t s).1.inflows_total =
      s.inflows_total + PortfolioHistory.convert_to_eur md t.quantity t.currency t.date ∧
    (PortfolioHistory.process_dividend md t s).1.cum_accounting_pnl =
      s.cum_accounting_pnl + PortfolioHistory.convert_to_eur md t.quantity t.currency t.date ∧
    (PortfolioHistory.process_dividend md t s).1.cum_trading_pnl = s.cum_trading_pnl ∧
    (PortfolioHistory.process_dividend md t s).1.cum_realized_pnl = s.cum_realized_pnl ∧
    (PortfolioHistory.process_dividend md t s).1.closed_trades = s.closed_trades ∧
    (PortfolioHistory.process_dividend md t s).1.open_positions =
      (PortfolioHistory.create_snapshot md s t.date).1.open_positions ∧
    (PortfolioHistory.process_dividend md t s).2.1.total_equity =
      (PortfolioHistory.create_snapshot md s t.date).2.1.total_equity +
        PortfolioHistory.convert_to_eur md t.quantity t.currency t.date ∧
    (PortfolioHistory.process_dividend md t s).2.1.adj_equity =
      (PortfolioHistory.create_snapshot md s t.date).2.1.adj_equity ∧
    (PortfolioHistory.process_dividend md t s).1.high_water_mark =
      (PortfolioHistory.create_snapshot md s t.date).1.high_water_mark ∧
    (PortfolioHistory.process_dividend md t s).2.1.drawdown =
      (PortfolioHistory.create_snapshot md s t.date).2.1.drawdown := by
  unfold PortfolioHistory.process_dividend PortfolioHistory.create_snapshot
  dsimp only
  have H1 : ∀ x y : ℚ, x = y →
      (if s.high_water_mark < x then x else s.high_water_mark) =
      (if s.high_water_mark < y then y else s.high_water_mark) := by
    intro x y hxy; rw [hxy]
  have H2 : ∀ x y : ℚ, x = y →
      (if 0 < (if s.high_water_mark < x then x else s.high_water_mark) then
        ((if s.high_water_mark < x then x else s.high_water_mark) - x) /
          (if s.high_water_mark < x then x else s.high_water_mark) * 100 else 0) =
      (if 0 < (if s.high_water_mark < y then y else s.high_water_mark) then
        ((if s.high_water_mark < y then y else s.high_water_mark) - y) /
          (if s.high_water_mark < y then y else s.high_water_mark) * 100 else 0) := by
    intro x y hxy; rw [hxy]
  refine ⟨rfl, rfl, rfl, rfl, rfl, rfl, rfl, by ring, by ring, H1 _ _ (by ring),
    H2 _ _ (by ring)⟩

namespace TradeLogic

/-- Constant market data for concrete TradeProcessor scenarios. -/
def mdOne : MarketData := { get_fx_rate := fun _ _ => 1 }

/-- State with an established adjusted-equity high-water mark of 100 and a
current adjusted equity of 50 (after a 50-point loss). -/
def stateDown : PState :=
  { total_equity := 50, cum_trading_pnl := -50, cum_inflow := 0, gross_profit := 0,
    gross_loss := 50, wins := 0, losses := 1, equity_high_watermark := 0,
    adjusted_equity_high_watermark := 100, open_positions := [] }

/-- Zero-amount transfer event used to trigger one metrics update. -/
def evInflow0 : RawEvent :=
  { event_id := "1", timestamp := 3, type := TxType.INFLOW, symbol := "",
    currency := "EUR", quantity := 0, price := 0, amount := 0, commission := 0,
    proceeds := 0 }

/-- State with gross profit 1 and gross loss 0 (one winning trade). -/
def stateOneWin : PState :=
  { total_equity := 1, cum_trading_pnl := 1, cum_inflow := 0, gross_profit := 1,
    gross_loss := 0, wins := 1, losses := 0, equity_high_watermark := 0,
    adjusted_equity_high_watermark := 1, open_positions := [] }

end TradeLogic

/-- C7 counterexample: with a high-water mark of 100 and adjusted equity 50,
`TradeProcessor._update_metrics` reports drawdown `-50`, while the claimed
formula `(high_water_mark − adjusted_equity) / high_water_mark × 100` gives
`+50`: the reported value is the negation of the formula and is negative. -/
theorem counterexample_C7_drawdown_reported_negative :
    (TradeLogic.process_event TradeLogic.mdOne TradeLogic.stateDown
      TradeLogic.evInflow0).2.drawdown = -50 ∧
    ((100 : ℚ) - 50) / 100 * 100 = 50 ∧ (-50 : ℚ) ≠ 50 := by
  refine ⟨?_, by norm_num, by norm_num⟩
  norm_num [TradeLogic.process_event, TradeLogic.process_transfer,
    TradeLogic.update_metrics, TradeLogic.stateDown, TradeLogic.evInflow0,
    TradeLogic.mdOne]
  rfl

namespace PortfolioHistory

/-- Drawdown computed against a freshly advanced high-water mark is never
negative. -/
theorem dd_nonneg_helper (hwm adj : ℚ) :
    0 ≤ (if 0 < (if hwm < adj then adj else hwm) then
          ((if hwm < adj then adj else hwm) - adj) /
            (if hwm < adj then adj else hwm) * 100 else 0) := by
  by_cases h : hwm < adj
  · simp only [if_pos h]
    split
    · simp
    · exact le_refl _
  · simp only [if_neg h]
    split
    · next hpos =>
        apply mul_nonneg
        · exact div_nonneg (by linarith [le_of_not_lt h]) (le_of_lt hpos)
        · norm_num
    · exact le_refl _

/-- The drawdown value computed in `_create_snapshot` is non-negative. -/
theorem create_snapshot_dd_nonneg (md : MarketData) (s : CalcState) (ts : ℕ) :
    0 ≤ (create_snapshot md s ts).2.1.drawdown := by
  unfold create_snapshot
  dsimp only
  exact dd_nonneg_helper _ _

/-- The drawdown value computed after any processed transaction is
non-negative. -/
theorem process_transaction_dd_nonneg (md : MarketData) (s : CalcState) (t : Transaction) :
    0 ≤ (process_transaction md s t).2.1.drawdown := by
  unfold process_transaction
  simp only
  split
  · unfold process_trade
    simp only
    exact create_snapshot_dd_nonneg ..
  · split
    · unfold process_cash
      simp only
      exact create_snapshot_dd_nonneg ..
    · split
      · unfold process_dividend
        exact create_snapshot_dd_nonneg ..
      · exact create_snapshot_dd_nonneg ..

end PortfolioHistory

namespace TradeLogic

/-- The `* (-1)` factor in `_update_metrics` makes the reported drawdown
non-positive. -/
theorem dd_nonpos_helper (hwm adj : ℚ) :
    (if 0 < (if hwm < adj then adj else hwm) then
      ((if hwm < adj then adj else hwm) - adj) /
        (if hwm < adj then adj else hwm) * 100 * (-1) else 0) ≤ 0 := by
  by_cases h : hwm < adj
  · simp only [if_pos h]
    split
    · simp
    · exact le_refl _
  · simp only [if_neg h]
    split
    · next hpos =>
        have h1 : 0 ≤ (hwm - adj) / hwm * 100 := by
          apply mul_nonneg
          · exact div_nonneg (by linarith [le_of_not_lt h]) (le_of_lt hpos)
          · norm_num
        linarith
    · exact le_refl _

/-- The drawdown reported by `_update_metrics` is non-positive. -/
theorem update_metrics_dd_nonpos (s : PState) (p : ProcessedEvent) :
    (update_metrics s p).2.drawdown ≤ 0 := by
  unfold update_metrics
  dsimp only
  exact dd_nonpos_helper _ _

/-- The drawdown reported after any processed event is non-positive. -/
theorem process_event_dd_nonpos (md : MarketData) (s : PState) (e : RawEvent) :
    (process_event md s e).2.drawdown ≤ 0 := by
  unfold process_event
  split
  · unfold process_trade
    simp only
    split
    · exact update_metrics_dd_nonpos ..
    · exact update_metrics_dd_nonpos ..
  · split
    · unfold process_dividend
      exact update_metrics_dd_nonpos ..
    · unfold process_transfer
      simp only
      exact update_metrics_dd_nonpos ..

end TradeLogic

/-- C7 amended: in `PortfolioCalculator` the drawdown equals
`(high_water_mark − adjusted_equity) / high_water_mark × 100` when the
(freshly advanced) high-water mark is positive and `0` otherwise, and is
non-negative after every processed transaction; `TradeProcessor`
(`trade_logic.py`) instead reports the **negation** of that formula
(`... × 100 × (−1)`), so its reported drawdown is non-positive. -/
theorem claim_C7_drawdown_formula_and_sign :
    (∀ (md : PortfolioHistory.MarketData) (s : PortfolioHistory.CalcState) (ts : ℕ),
      (PortfolioHistory.create_snapshot md s ts).2.1.drawdown =
        (if 0 < (PortfolioHistory.create_snapshot md s ts).1.high_water_mark then
          ((PortfolioHistory.create_snapshot md s ts).1.high_water_mark -
            (PortfolioHistory.create_snapshot md s ts).2.1.adj_equity) /
            (PortfolioHistory.create_snapshot md s ts).1.high_water_mark * 100
        else 0)) ∧
    (∀ (md : PortfolioHistory.MarketData) (s : PortfolioHistory.CalcState)
      (t : PortfolioHistory.Transaction),
      0 ≤ (PortfolioHistory.process_transaction md s t).2.1.drawdown) ∧
    (∀ (s : TradeLogic.PState) (p : TradeLogic.ProcessedEvent),
      (TradeLogic.update_metrics s p).2.drawdown =
        (if 0 < (TradeLogic.update_metrics s p).1.adjusted_equity_high_watermark then
          ((TradeLogic.update_metrics s p).1.adjusted_equity_high_watermark -
            (s.total_equity - s.cum_inflow)) /
            (TradeLogic.update_metrics s p).1.adjusted_equity_high_watermark * 100 * (-1)
        else 0)) ∧
    (∀ (md : TradeLogic.MarketData) (s : TradeLogic.PState) (e : TradeLogic.RawEvent),
      (TradeLogic.process_event md s e).2.drawdown ≤ 0) :=
  ⟨fun _ _ _ => rfl, PortfolioHistory.process_transaction_dd_nonneg,
   fun _ _ => rfl, TradeLogic.process_event_dd_nonpos⟩

/-- C8 counterexample: with gross profit 1 and gross loss 0,
`TradeProcessor._update_metrics` reports `float(\x7binf\x7d)` as the profit factor,
not a finite sentinel. -/
theorem counterexample_C8_profit_factor_infinity :
    (TradeLogic.process_event TradeLogic.mdOne TradeLogic.stateOneWin
      TradeLogic.evInflow0).2.cum_profit_factor = PortfolioHistory.PF.inf ∧
    PortfolioHistory.PF.inf ≠ PortfolioHistory.PF.val 999 := by
  constructor
  · rfl
  · simp

namespace PortfolioHistory

/-- The method `_calc_profit_factor` never returns the infinity. -/
theorem calc_profit_factor_ne_inf (l : List ClosedTrade) :
    calc_profit_factor l ≠ PF.inf := by
  unfold calc_profit_factor
  split
  · split <;> simp
  · simp

end PortfolioHistory

/-- C8: neither engine can crash on a zero gross loss, and the profit factor
equals gross profit / gross loss when the gross loss is nonzero.  Amended for
the zero-loss case: `PortfolioCalculator._calc_profit_factor` returns the
finite sentinel `999.0` when gross profit is positive (else `0`), but
`TradeProcessor._update_metrics` in `trade_logic.py` returns `float(\x7binf\x7d)`
(else `0`), not a finite sentinel. -/
theorem claim_C8_profit_factor_zero_loss_handling :
    (∀ (md : PortfolioHistory.MarketData) (s : PortfolioHistory.CalcState)
       (t : PortfolioHistory.Transaction),
      (PortfolioHistory.process_transaction md s t).2.1.metrics.profit_factor =
        (if PortfolioHistory.grossLosses
              ((PortfolioHistory.process_transaction md s t).1.closed_trades) = 0 then
          (if 0 < PortfolioHistory.grossWins
                ((PortfolioHistory.process_transaction md s t).1.closed_trades) then
            PortfolioHistory.PF.val 999
          else PortfolioHistory.PF.val 0)
        else
          PortfolioHistory.PF.val
            (PortfolioHistory.grossWins
                ((PortfolioHistory.process_transaction md s t).1.closed_trades) /
              PortfolioHistory.grossLosses
                ((PortfolioHistory.process_transaction md s t).1.closed_trades)))) ∧
    (∀ (md : PortfolioHistory.MarketData) (s : PortfolioHistory.CalcState)
       (t : PortfolioHistory.Transaction),
      (PortfolioHistory.process_transaction md s t).2.1.metrics.profit_factor ≠
        PortfolioHistory.PF.inf) ∧
    (∀ (md : TradeLogic.MarketData) (s : TradeLogic.PState) (e : TradeLogic.RawEvent),
      (TradeLogic.process_event md s e).2.cum_profit_factor =
        (if (TradeLogic.process_event md s e).1.gross_loss = 0 then
          (if 0 < (TradeLogic.process_event md s e).1.gross_profit then
            PortfolioHistory.PF.inf
          else PortfolioHistory.PF.val 0)
        else
          PortfolioHistory.PF.val
            ((TradeLogic.process_event md s e).1.gross_profit /
              (TradeLogic.process_event md s e).1.gross_loss))) := by
  refine ⟨?_, ?_, ?_⟩
  · intro md s t
    unfold PortfolioHistory.process_transaction
    simp only
    split
    · unfold PortfolioHistory.process_trade
      rfl
    · split
      · unfold PortfolioHistory.process_cash
        rfl
      · split
        · unfold PortfolioHistory.process_dividend
          rfl
        · rfl
  · intro md s t
    unfold PortfolioHistory.process_transaction
    simp only
    split
    · exact PortfolioHistory.calc_profit_factor_ne_inf _
    · split
      · exact PortfolioHistory.calc_profit_factor_ne_inf _
      · split
        · exact PortfolioHistory.calc_profit_factor_ne_inf _
        · exact PortfolioHistory.calc_profit_factor_ne_inf _
  · intro md s e
    unfold TradeLogic.process_event
    split
    · unfold TradeLogic.process_trade
      simp only
      split
      · rfl
      · rfl
    · split
      · unfold TradeLogic.process_dividend
        rfl
      · unfold TradeLogic.process_transfer
        simp only
        split
        · rfl
        · split
          · rfl
          · rfl

/-- C5: in every iteration of the matching loop of a closing trade, the
quantity matched against the queue lot being consumed equals
`min(remaining_trade_qty, lot.remaining_qty)`: in `PortfolioCalculator`'s LIFO
loop and `FifoEngine`'s FIFO loop literally, and in `TradeProcessor`'s signed
loop in absolute value.  In each case the remaining trade quantity and the
lot both shrink by exactly that match. -/
theorem claim_C5_match_quantity_is_min :
    (∀ (md : PortfolioHistory.MarketData) (t : PortfolioHistory.Transaction)
       (rem : ℚ) (tr : PortfolioHistory.Tranche) (acc : PortfolioHistory.SellAcc),
      rem - (PortfolioHistory.sellStep md t rem tr acc).rem = min rem tr.quantity ∧
      (PortfolioHistory.sellStep md t rem tr acc).consumedLotQty tr = min rem tr.quantity) ∧
    (∀ (trade : Fifo.TradeEvent) (rem : ℚ) (buy : Fifo.TradeEvent),
      rem - (Fifo.fifoStep trade rem buy).rem = min rem buy.quantity ∧
      (Fifo.fifoStep trade rem buy).consumedLotQty buy = min rem buy.quantity) ∧
    (∀ (raw : TradeLogic.RawEvent) (fx rem : ℚ) (lot : TradeLogic.Lot)
       (acc : TradeLogic.CloseAcc),
      |rem - (TradeLogic.closeStep raw fx rem lot acc).rem| = min |rem| |lot.qty| ∧
      |(TradeLogic.closeStep raw fx rem lot acc).consumedLotQty lot| = min |rem| |lot.qty|) := by
  refine ⟨?_, ?_, ?_⟩
  · intro md t rem tr acc
    unfold PortfolioHistory.sellStep
    dsimp only
    split
    · next hm =>
        constructor
        · simp [PortfolioHistory.SellStep.rem]
        · simp [PortfolioHistory.SellStep.consumedLotQty, hm]
    · constructor
      · simp [PortfolioHistory.SellStep.rem]
      · simp [PortfolioHistory.SellStep.consumedLotQty]
  · intro trade rem buy
    unfold Fifo.fifoStep
    dsimp only
    split
    · next hm =>
        constructor
        · simp [Fifo.FifoStep.rem]
        · simp [Fifo.FifoStep.consumedLotQty, hm]
    · constructor
      · simp [Fifo.FifoStep.rem]
      · simp [Fifo.FifoStep.consumedLotQty]
  · intro raw fx rem lot acc
    unfold TradeLogic.closeStep
    dsimp only
    split
    · next hm =>
        constructor
        · simp only [TradeLogic.CloseStep.rem]
          rw [min_eq_right hm]
          ring_nf
          rw [abs_neg]
        · simp only [TradeLogic.CloseStep.consumedLotQty]
          rw [min_eq_right hm]
    · next hm =>
        have hlt : |rem| < |lot.qty| := lt_of_not_le hm
        constructor
        · simp only [TradeLogic.CloseStep.rem]
          rw [min_eq_left (le_of_lt hlt)]
          simp
        · simp only [TradeLogic.CloseStep.consumedLotQty]
          rw [min_eq_left (le_of_lt hlt)]
          ring_nf
          rw [abs_neg]

namespace PortfolioHistory

/-- Accumulators after a LIFO matching iteration. -/
def SellStep.acc : SellStep → SellAcc
  | .cont _ a => a
  | .stop _ _ a => a

end PortfolioHistory

namespace PyPortfolio

/-- Long lot of 10 units at price 100 used for concrete match checks. -/
def wlot : Lot := { price := 100, date := 1, qty := 10, fx := 1, fees_unit := 0 }

/-- Zero PnL accumulators. -/
def wacc : PyAcc := { pnl_trading := 0, pnl_accounting := 0, consumed_opening_fees := 0 }

end PyPortfolio

/-- C6: for every match of a closing trade against an opening lot of signed
quantity `q`, the Trading PnL added by the match equals
`(exit_price − entry_price) × matched_qty` when `q > 0` and
`(entry_price − exit_price) × matched_qty` when `q < 0`, with
`matched_qty = min(|remaining|, |q|)`.  The closed form contains neither the
FX rates nor the fee fields, so the tier carries no fee and no
currency-conversion component (the separate Accounting tier multiplies
through the FX rates).  In `PortfolioCalculator` the per-match gross PnL is
the same `(exit − entry) × matched_qty` formula (its lots are long-only),
converted to EUR as a whole only when accumulated. -/
theorem claim_C6_trading_pnl_tier :
    (∀ (raw_price fx rem : ℚ) (lot : PyPortfolio.Lot) (acc : PyPortfolio.PyAcc),
      rem * lot.qty < 0 →
      (PyPortfolio.closeStep raw_price fx rem lot acc).acc.pnl_trading - acc.pnl_trading =
        (if 0 < lot.qty then raw_price - lot.price else lot.price - raw_price) *
          min |rem| |lot.qty|) ∧
    (∀ (md : PortfolioHistory.MarketData) (t : PortfolioHistory.Transaction)
       (rem : ℚ) (tr : PortfolioHistory.Tranche) (acc : PortfolioHistory.SellAcc),
      (PortfolioHistory.sellStep md t rem tr acc).acc.trading - acc.trading =
        PortfolioHistory.convert_to_eur md ((t.price - tr.price) * min rem tr.quantity)
          t.currency t.date) := by
  constructor
  · intro raw_price fx rem lot acc hsign
    unfold PyPortfolio.closeStep
    dsimp only
    split
    · next hm =>
        rw [min_eq_right hm]
        split
        · simp only [PyPortfolio.PyStep.acc]
          rw [abs_neg]
          ring
        · simp only [PyPortfolio.PyStep.acc]
          rw [abs_neg]
          ring
    · next hm =>
        have hlt : |rem| < |lot.qty| := lt_of_not_le hm
        rw [min_eq_left (le_of_lt hlt)]
        have hq0 : lot.qty ≠ 0 := by
          intro h0
          rw [h0, mul_zero] at hsign
          exact lt_irrefl 0 hsign
        by_cases hq : 0 < lot.qty
        · have hrem : rem < 0 := by
            rcases lt_trichotomy rem 0 with h | h | h
            · exact h
            · rw [h, zero_mul] at hsign; exact absurd hsign (lt_irrefl 0)
            · nlinarith
          have hcons : 0 < -rem := by linarith
          simp only [if_pos hq, if_pos hcons, PyPortfolio.PyStep.acc]
          ring
        · have hqlt : lot.qty < 0 := lt_of_le_of_ne (le_of_not_lt hq) hq0
          have hrem : 0 < rem := by nlinarith
          have hcons : ¬ 0 < -rem := by linarith
          simp only [if_neg hq, if_neg hcons, PyPortfolio.PyStep.acc]
          ring
  · intro md t rem tr acc
    unfold PortfolioHistory.sellStep
    dsimp only
    split
    · simp [PortfolioHistory.SellStep.acc]
    · simp [PortfolioHistory.SellStep.acc]

/-- Witness for C6 at a concrete partial match: Sell 5 (remaining `-5`)
against a long lot of 10 @ 100 with exit price 110 adds `(110 − 100) × 5 = 50`
to the Trading tier. -/
theorem claim_C6_trading_pnl_tier_witness :
    (-5 : ℚ) * PyPortfolio.wlot.qty < 0 ∧
    (PyPortfolio.closeStep 110 1 (-5) PyPortfolio.wlot PyPortfolio.wacc).acc.pnl_trading -
        PyPortfolio.wacc.pnl_trading =
      (if 0 < PyPortfolio.wlot.qty then 110 - PyPortfolio.wlot.price
       else PyPortfolio.wlot.price - 110) * min |(-5 : ℚ)| |PyPortfolio.wlot.qty| :=
  ⟨by norm_num [PyPortfolio.wlot],
   claim_C6_trading_pnl_tier.1 110 1 (-5) PyPortfolio.wlot PyPortfolio.wacc
     (by norm_num [PyPortfolio.wlot])⟩

namespace PyDict

/-- Reading back a key just written returns the written value. -/
theorem get?_set_self {α : Type} (l : List (String × α)) (key : String) (v : α) :
    get? (set l key v) key = some v := by
  induction l with
  | nil => simp [set, get?]
  | cons kw rest ih =>
      by_cases h : kw.1 = key
      · simp [set, get?, h]
      · simp [set, get?, h, ih]

end PyDict

namespace TradeLogic

/-- Sum of the signed lot quantities of a queue. -/
def sumLotQty (l : List Lot) : ℚ :=
  (l.map Lot.qty).sum

/-- Queues of positive lots have non-negative quantity sum. -/
theorem sumLotQty_nonneg (l : List Lot) (h : ∀ lot ∈ l, 0 < lot.qty) :
    0 ≤ sumLotQty l := by
  apply List.sum_nonneg
  intro x hx
  rcases List.mem_map.1 hx with ⟨lot, hl, rfl⟩
  exact le_of_lt (h lot hl)

/-- Queues of negative lots have non-positive quantity sum. -/
theorem sumLotQty_nonpos (l : List Lot) (h : ∀ lot ∈ l, lot.qty < 0) :
    sumLotQty l ≤ 0 := by
  induction l with
  | nil => simp [sumLotQty]
  | cons lot rest ih =>
      have h1 : lot.qty ≤ 0 := le_of_lt (h lot (List.mem_cons_self _ _))
      have h2 : sumLotQty rest ≤ 0 := ih (fun x hx => h x (List.mem_cons_of_mem _ hx))
      simp only [sumLotQty, List.map_cons, List.sum_cons]
      simp only [sumLotQty] at h2
      linarith

/-- When the queue head is not larger than the remaining trade quantity the
iteration fully consumes it. -/
theorem closeStep_full (raw : RawEvent) (fx rem : ℚ) (lot : Lot) (acc : CloseAcc)
    (h : |lot.qty| ≤ |rem|) :
    ∃ a, closeStep raw fx rem lot acc = .cont (rem - -lot.qty) a := by
  unfold closeStep
  dsimp only
  rw [if_pos h]
  exact ⟨_, rfl⟩

/-- Exhaustion of an all-long queue by a larger sell: every lot is fully
closed and the loop returns the signed remainder `rem + sum`. -/
theorem closeLoop_exhausts_long (raw : RawEvent) (fx : ℚ) :
    ∀ (lots : List Lot) (rem : ℚ) (acc : CloseAcc),
      (∀ lot ∈ lots, 0 < lot.qty) → rem < 0 → sumLotQty lots < -rem →
      (closeLoop raw fx rem lots acc).1 = rem + sumLotQty lots ∧
      (closeLoop raw fx rem lots acc).2.1 = [] := by
  intro lots
  induction lots with
  | nil => intro rem acc _ _ _; simp [closeLoop, sumLotQty]
  | cons lot rest ih =>
      intro rem acc hpos hrem hsum
      have hq : 0 < lot.qty := hpos lot (List.mem_cons_self _ _)
      have hrest : 0 ≤ sumLotQty rest :=
        sumLotQty_nonneg rest (fun x hx => hpos x (List.mem_cons_of_mem _ hx))
      have hsum' : sumLotQty (lot :: rest) = lot.qty + sumLotQty rest := by
        simp [sumLotQty]
      have habs : |lot.qty| ≤ |rem| := by
        rw [abs_of_pos hq, abs_of_neg hrem]
        rw [hsum'] at hsum
        linarith
      rcases closeStep_full raw fx rem lot acc habs with ⟨a, ha⟩
      rw [closeLoop, if_neg (ne_of_lt hrem), ha]
      have hrem' : rem + lot.qty < 0 := by
        rw [hsum'] at hsum
        linarith
      have hsum2 : sumLotQty rest < -(rem + lot.qty) := by
        rw [hsum'] at hsum
        linarith
      have := ih (rem + lot.qty) a
        (fun x hx => hpos x (List.mem_cons_of_mem _ hx)) hrem' hsum2
      constructor
      · rw [show rem - -lot.qty = rem + lot.qty by ring]
        rw [this.1, hsum']
        ring
      · rw [show rem - -lot.qty = rem + lot.qty by ring]
        exact this.2

/-- Exhaustion of an all-short queue by a larger buy. -/
theorem closeLoop_exhausts_short (raw : RawEvent) (fx : ℚ) :
    ∀ (lots : List Lot) (rem : ℚ) (acc : CloseAcc),
      (∀ lot ∈ lots, lot.qty < 0) → 0 < rem → -sumLotQty lots < rem →
      (closeLoop raw fx rem lots acc).1 = rem + sumLotQty lots ∧
      (closeLoop raw fx rem lots acc).2.1 = [] := by
  intro lots
  induction lots with
  | nil => intro rem acc _ _ _; simp [closeLoop, sumLotQty]
  | cons lot rest ih =>
      intro rem acc hneg hrem hsum
      have hq : lot.qty < 0 := hneg lot (List.mem_cons_self _ _)
      have hrest : sumLotQty rest ≤ 0 :=
        sumLotQty_nonpos rest (fun x hx => hneg x (List.mem_cons_of_mem _ hx))
      have hsum' : sumLotQty (lot :: rest) = lot.qty + sumLotQty rest := by
        simp [sumLotQty]
      have habs : |lot.qty| ≤ |rem| := by
        rw [abs_of_neg hq, abs_of_pos hrem]
        rw [hsum'] at hsum
        linarith
      rcases closeStep_full raw fx rem lot acc habs with ⟨a, ha⟩
      rw [closeLoop, if_neg (ne_of_gt hrem), ha]
      have hrem' : 0 < rem + lot.qty := by
        rw [hsum'] at hsum
        linarith
      have hsum2 : -sumLotQty rest < rem + lot.qty := by
        rw [hsum'] at hsum
        linarith
      have := ih (rem + lot.qty) a
        (fun x hx => hneg x (List.mem_cons_of_mem _ hx)) hrem' hsum2
      constructor
      · rw [show rem - -lot.qty = rem + lot.qty by ring]
        rw [this.1, hsum']
        ring
      · rw [show rem - -lot.qty = rem + lot.qty by ring]
        exact this.2

end TradeLogic

namespace TradeLogic

/-- Flip of a long queue by an over-sized sell in `TradeProcessor`: every
existing lot is fully closed and exactly one new lot on the sell side holds
the signed remainder. -/
theorem process_trade_flip_long (md : MarketData) (s : PState) (raw : RawEvent)
    (l0 : Lot) (rest : List Lot)
    (hget : PyDict.get? s.open_positions raw.symbol = some (l0 :: rest))
    (hpos : ∀ lot ∈ l0 :: rest, 0 < lot.qty)
    (hq : raw.quantity < 0)
    (hsum : sumLotQty (l0 :: rest) < -raw.quantity) :
    PyDict.get? (process_trade md s raw).1.open_positions raw.symbol =
      some [{ price := raw.price, date := raw.timestamp,
              qty := raw.quantity + sumLotQty (l0 :: rest),
              fx := md.get_fx_rate (raw.currency ++ "EUR") raw.timestamp }] ∧
    raw.quantity + sumLotQty (l0 :: rest) < 0 := by
  have hq0 : 0 < l0.qty := hpos l0 (List.mem_cons_self _ _)
  have hflip : raw.quantity + sumLotQty (l0 :: rest) < 0 := by linarith
  refine ⟨?_, hflip⟩
  have hres := closeLoop_exhausts_long raw
    (md.get_fx_rate (raw.currency ++ "EUR") raw.timestamp) (l0 :: rest) raw.quantity
    { total_pnl := 0, cost_basis := 0, abs_qty := 0 } hpos hq hsum
  have hc : decide ((0 < raw.quantity ∧ l0.qty < 0) ∨ (raw.quantity < 0 ∧ 0 < l0.qty)) = true :=
    decide_eq_true (Or.inr ⟨hq, hq0⟩)
  unfold process_trade
  rw [hget]
  dsimp only [Option.getD_some]
  rw [if_pos hc, hres.1, hres.2, if_neg (ne_of_lt hflip)]
  dsimp only [List.nil_append]
  exact PyDict.get?_set_self ..

/-- Flip of a short queue by an over-sized buy in `TradeProcessor`. -/
theorem process_trade_flip_short (md : MarketData) (s : PState) (raw : RawEvent)
    (l0 : Lot) (rest : List Lot)
    (hget : PyDict.get? s.open_positions raw.symbol = some (l0 :: rest))
    (hneg : ∀ lot ∈ l0 :: rest, lot.qty < 0)
    (hq : 0 < raw.quantity)
    (hsum : -sumLotQty (l0 :: rest) < raw.quantity) :
    PyDict.get? (process_trade md s raw).1.open_positions raw.symbol =
      some [{ price := raw.price, date := raw.timestamp,
              qty := raw.quantity + sumLotQty (l0 :: rest),
              fx := md.get_fx_rate (raw.currency ++ "EUR") raw.timestamp }] ∧
    0 < raw.quantity + sumLotQty (l0 :: rest) := by
  have hq0 : l0.qty < 0 := hneg l0 (List.mem_cons_self _ _)
  have hflip : 0 < raw.quantity + sumLotQty (l0 :: rest) := by linarith
  refine ⟨?_, hflip⟩
  have hres := closeLoop_exhausts_short raw
    (md.get_fx_rate (raw.currency ++ "EUR") raw.timestamp) (l0 :: rest) raw.quantity
    { total_pnl := 0, cost_basis := 0, abs_qty := 0 } hneg hq hsum
  have hc : decide ((0 < raw.quantity ∧ l0.qty < 0) ∨ (raw.quantity < 0 ∧ 0 < l0.qty)) = true :=
    decide_eq_true (Or.inl ⟨hq, hq0⟩)
  unfold process_trade
  rw [hget]
  dsimp only [Option.getD_some]
  rw [if_pos hc, hres.1, hres.2, if_neg (ne_of_gt hflip)]
  dsimp only [List.nil_append]
  exact PyDict.get?_set_self ..

end TradeLogic

namespace PortfolioXml

/-- The closing leg of a flip (`_execute_trade` called with exactly the
negated position quantity) lands exactly on quantity zero: no single
position update crosses zero. -/
theorem execute_trade_close_to_zero (md : MarketData) (pos : Position)
    (price comm : ℚ) (td sd : ℕ) (h : pos.quantity ≠ 0) :
    (execute_trade md pos (-pos.quantity) price comm td sd).1.quantity = 0 := by
  have hsq : 0 < pos.quantity * pos.quantity := mul_self_pos.2 h
  have hcl : pos.quantity * -pos.quantity < 0 := by nlinarith
  unfold execute_trade
  dsimp only
  rw [if_neg (not_not_intro hcl)]
  dsimp only
  split
  · simp [cleanup]
  · simp [cleanup]

/-- Opening from a flat position: the new quantity is the trade quantity
(no near-zero cleanup when it is at least `1e-6` in magnitude). -/
theorem execute_trade_open_from_zero (md : MarketData) (p0 : Position)
    (tq price comm : ℚ) (td sd : ℕ) (h0 : p0.quantity = 0)
    (hbig : 1 / 1000000 ≤ |tq|) :
    (execute_trade md p0 tq price comm td sd).1.quantity = tq := by
  have hop : ¬ (p0.quantity * tq < 0) := by rw [h0]; simp
  have hcl : ¬ (|tq| < 1 / 1000000) := not_lt.2 hbig
  unfold execute_trade
  dsimp only
  rw [if_pos hop]
  dsimp only
  rw [h0]
  split
  · simp only [cleanup]
    simp only [zero_add]
    rw [if_neg hcl]
  · simp only [cleanup]
    simp only [zero_add]
    rw [if_neg hcl]

/-- Flip handling in `Portfolio.process_trade`: the closing leg neutralises
the old position exactly and the opening leg leaves the position holding the
signed remainder `old_quantity + trade_quantity`. -/
theorem process_trade_flip (md : MarketData) (s : Portfolio)
    (symbol currency isin : String) (quantity price proceeds comm : ℚ)
    (td sd : ℕ) (pos : Position)
    (hget : PyDict.get? s.positions symbol = some pos)
    (hflip : pos.quantity * (pos.quantity + quantity) < 0)
    (hbig : 1 / 1000000 ≤ |pos.quantity + quantity|) :
    ((PyDict.get? (process_trade md s symbol currency isin quantity price proceeds
        comm td sd).positions symbol).map Position.quantity) =
      some (pos.quantity + quantity) := by
  have hq0 : pos.quantity ≠ 0 := by
    intro h
    rw [h, zero_mul] at hflip
    exact lt_irrefl 0 hflip
  unfold process_trade
  rw [hget]
  dsimp only [Option.getD_some]
  set pfix := if pos.isin = "" ∧ isin ≠ "" then { pos with isin := isin } else pos with hpfix
  have hpq : pfix.quantity = pos.quantity := by rw [hpfix]; split <;> rfl
  rw [hpq, if_pos hflip]
  dsimp only
  rw [PyDict.get?_set_self]
  have h1 : (execute_trade md pfix (-pos.quantity) price
      (comm * |-pos.quantity / quantity|) td sd).1.quantity = 0 := by
    rw [← hpq]
    exact execute_trade_close_to_zero md pfix price
      (comm * |-pfix.quantity / quantity|) td sd (by rw [hpq]; exact hq0)
  have h2 := execute_trade_open_from_zero md
    (execute_trade md pfix (-pos.quantity) price
      (comm * |-pos.quantity / quantity|) td sd).1
    (pos.quantity + quantity) price
    (comm - comm * |-pos.quantity / quantity|) td sd h1 hbig
  simp only [Option.map_some']
  rw [h2]

end PortfolioXml

namespace Fifo

/-- Sum of the queued buy-tranche quantities. -/
def sumEventQty (l : List TradeEvent) : ℚ :=
  (l.map TradeEvent.quantity).sum

/-- When the queue head does not exceed the remaining sell quantity the FIFO
iteration pops it whole. -/
theorem fifoStep_cont (trade : TradeEvent) (rem : ℚ) (buy : TradeEvent)
    (h : buy.quantity ≤ rem) :
    ∃ c, fifoStep trade rem buy = .cont (rem - buy.quantity) c := by
  unfold fifoStep
  dsimp only
  rw [min_eq_right h, if_pos rfl]
  exact ⟨_, rfl⟩

/-- An over-sized sell drains the whole FIFO queue and exits with a positive
unconsumed remainder. -/
theorem fifoLoop_exhausts (trade : TradeEvent) :
    ∀ (queue : List TradeEvent) (rem : ℚ) (cs : List FClosedTrade),
      (∀ b ∈ queue, 0 < b.quantity) → sumEventQty queue < rem →
      (fifoLoop trade rem queue cs).1 = rem - sumEventQty queue ∧
      (fifoLoop trade rem queue cs).2.1 = [] := by
  intro queue
  induction queue with
  | nil => intro rem cs _ _; simp [fifoLoop, sumEventQty]
  | cons buy rest ih =>
      intro rem cs hpos hsum
      have hq : 0 < buy.quantity := hpos buy (List.mem_cons_self _ _)
      have hrest : 0 ≤ sumEventQty rest := by
        apply List.sum_nonneg
        intro x hx
        rcases List.mem_map.1 hx with ⟨b, hb, rfl⟩
        exact le_of_lt (hpos b (List.mem_cons_of_mem _ hb))
      have hsum' : sumEventQty (buy :: rest) = buy.quantity + sumEventQty rest := by
        simp [sumEventQty]
      have hrem : 0 < rem := by
        rw [hsum'] at hsum
        linarith
      have hle : buy.quantity ≤ rem := by
        rw [hsum'] at hsum
        linarith
      rcases fifoStep_cont trade rem buy hle with ⟨c, hc⟩
      rw [fifoLoop, if_pos hrem, hc]
      have := ih (rem - buy.quantity) (cs ++ [c])
        (fun b hb => hpos b (List.mem_cons_of_mem _ hb))
        (by rw [hsum'] at hsum; linarith)
      refine ⟨?_, this.2⟩
      rw [this.1, hsum']
      ring

/-- Over-selling in `FifoEngine.process_trade`: every queued tranche is
closed, the queue is written back empty, and the positive remainder is
silently discarded — no short lot is opened. -/
theorem process_trade_oversell_drops (s : EngineState) (trade : TradeEvent)
    (queue : List TradeEvent)
    (htype : trade.type = FTxType.SELL)
    (hget : PyDict.get? s.open_tranches trade.symbol = some queue)
    (hpos : ∀ b ∈ queue, 0 < b.quantity)
    (hsum : sumEventQty queue < trade.quantity) :
    PyDict.get? (process_trade s trade).open_tranches trade.symbol = some [] := by
  unfold process_trade
  rw [htype, hget]
  dsimp only
  rw [(fifoLoop_exhausts trade queue trade.quantity [] hpos hsum).2]
  exact PyDict.get?_set_self ..

/-- Concrete buy of 10 @ 100. -/
def buyX : TradeEvent :=
  { id := "b", date := 1, time := "t", symbol := "X", isin := "X",
    type := FTxType.BUY, quantity := 10, price := 100, commission := 0,
    currency := "EUR" }

/-- Concrete over-sized sell of 15 @ 110 against the 10-lot. -/
def sellX : TradeEvent :=
  { id := "s", date := 2, time := "t", symbol := "X", isin := "X",
    type := FTxType.SELL, quantity := 15, price := 110, commission := 0,
    currency := "EUR" }

end Fifo

/-- C4 counterexample: in `FifoEngine`, Buy 10 @ 100 followed by Sell 15 @
110 closes the 10-lot and leaves the queue **empty** — the 5-unit remainder
opens no lot on the sell side (the claim demands exactly one new lot holding
it) — while exactly one closed trade of 10 units is recorded and no error is
raised. -/
theorem counterexample_C4_fifo_remainder_discarded :
    PyDict.get? (Fifo.process_trade (Fifo.process_trade Fifo.initEngine Fifo.buyX)
      Fifo.sellX).open_tranches "X" = some [] ∧
    (Fifo.process_trade (Fifo.process_trade Fifo.initEngine Fifo.buyX)
      Fifo.sellX).closed_trades.length = 1 := by
  constructor
  · norm_num [Fifo.process_trade, Fifo.initEngine, Fifo.buyX, Fifo.sellX,
      Fifo.fifoLoop, Fifo.fifoStep, PyDict.get?, PyDict.set]
  · norm_num [Fifo.process_trade, Fifo.initEngine, Fifo.buyX, Fifo.sellX,
      Fifo.fifoLoop, Fifo.fifoStep, PyDict.get?, PyDict.set]

namespace TradeLogic

/-- Long lot of 10 @ 100 for the concrete flip scenario. -/
def wLot10 : Lot := { price := 100, date := 1, qty := 10, fx := 1 }

/-- State holding one long lot of 10 for symbol `T`. -/
def wFlipState : PState :=
  { initPState with open_positions := [("T", [wLot10])] }

/-- Over-sized sell of 15 (signed `-15`) @ 110 against the 10-long. -/
def wSellRaw : RawEvent :=
  { event_id := "e", timestamp := 2, type := TxType.SELL, symbol := "T",
    currency := "EUR", quantity := -15, price := 110, amount := 0,
    commission := 0, proceeds := 0 }

end TradeLogic

/-- C4 amended: in `TradeProcessor` (`trade_logic.py`) an over-sized closing
trade fully closes every queued lot and opens exactly one new lot on its own
side holding the signed remainder (both directions); in `Portfolio`
(`portfolio.py`) the flip's closing leg lands exactly on quantity zero —
never crossing zero — and the position ends holding the remainder
`old_quantity + trade_quantity`; but in `FifoEngine` the unconsumed
remainder of an over-sized sell is silently discarded: the queue is emptied
and no new lot is opened.  None of the engines raises an error. -/
theorem claim_C4_flip_closes_all_and_opens_remainder :
    (∀ (md : TradeLogic.MarketData) (s : TradeLogic.PState) (raw : TradeLogic.RawEvent)
       (l0 : TradeLogic.Lot) (rest : List TradeLogic.Lot),
      PyDict.get? s.open_positions raw.symbol = some (l0 :: rest) →
      (∀ lot ∈ l0 :: rest, 0 < lot.qty) →
      raw.quantity < 0 →
      TradeLogic.sumLotQty (l0 :: rest) < -raw.quantity →
      PyDict.get? (TradeLogic.process_trade md s raw).1.open_positions raw.symbol =
        some [{ price := raw.price, date := raw.timestamp,
                qty := raw.quantity + TradeLogic.sumLotQty (l0 :: rest),
                fx := md.get_fx_rate (raw.currency ++ "EUR") raw.timestamp }] ∧
      raw.quantity + TradeLogic.sumLotQty (l0 :: rest) < 0) ∧
    (∀ (md : TradeLogic.MarketData) (s : TradeLogic.PState) (raw : TradeLogic.RawEvent)
       (l0 : TradeLogic.Lot) (rest : List TradeLogic.Lot),
      PyDict.get? s.open_positions raw.symbol = some (l0 :: rest) →
      (∀ lot ∈ l0 :: rest, lot.qty < 0) →
      0 < raw.quantity →
      -TradeLogic.sumLotQty (l0 :: rest) < raw.quantity →
      PyDict.get? (TradeLogic.process_trade md s raw).1.open_positions raw.symbol =
        some [{ price := raw.price, date := raw.timestamp,
                qty := raw.quantity + TradeLogic.sumLotQty (l0 :: rest),
                fx := md.get_fx_rate (raw.currency ++ "EUR") raw.timestamp }] ∧
      0 < raw.quantity + TradeLogic.sumLotQty (l0 :: rest)) ∧
    (∀ (md : PortfolioXml.MarketData) (pos : PortfolioXml.Position)
       (price comm : ℚ) (td sd : ℕ),
      pos.quantity ≠ 0 →
      (PortfolioXml.execute_trade md pos (-pos.quantity) price comm td sd).1.quantity = 0) ∧
    (∀ (md : PortfolioXml.MarketData) (s : PortfolioXml.Portfolio)
       (symbol currency isin : String) (quantity price proceeds comm : ℚ)
       (td sd : ℕ) (pos : PortfolioXml.Position),
      PyDict.get? s.positions symbol = some pos →
      pos.quantity * (pos.quantity + quantity) < 0 →
      1 / 1000000 ≤ |pos.quantity + quantity| →
      ((PyDict.get? (PortfolioXml.process_trade md s symbol currency isin quantity
          price proceeds comm td sd).positions symbol).map
            PortfolioXml.Position.quantity) = some (pos.quantity + quantity)) ∧
    (∀ (s : Fifo.EngineState) (trade : Fifo.TradeEvent) (queue : List Fifo.TradeEvent),
      trade.type = Fifo.FTxType.SELL →
      PyDict.get? s.open_tranches trade.symbol = some queue →
      (∀ b ∈ queue, 0 < b.quantity) →
      Fifo.sumEventQty queue < trade.quantity →
      PyDict.get? (Fifo.process_trade s trade).open_tranches trade.symbol = some []) :=
  ⟨TradeLogic.process_trade_flip_long, TradeLogic.process_trade_flip_short,
   PortfolioXml.execute_trade_close_to_zero, PortfolioXml.process_trade_flip,
   Fifo.process_trade_oversell_drops⟩

/-- Witness for C4 at a concrete flip: a sell of 15 (signed `-15`) @ 110
against one long lot of 10 @ 100 leaves exactly one short lot of `-5` @ 110
for the symbol. -/
theorem claim_C4_flip_closes_all_and_opens_remainder_witness :
    PyDict.get? TradeLogic.wFlipState.open_positions TradeLogic.wSellRaw.symbol =
      some [TradeLogic.wLot10] ∧
    TradeLogic.wSellRaw.quantity < 0 ∧
    TradeLogic.sumLotQty [TradeLogic.wLot10] < -TradeLogic.wSellRaw.quantity ∧
    (PyDict.get? (TradeLogic.process_trade TradeLogic.mdOne TradeLogic.wFlipState
        TradeLogic.wSellRaw).1.open_positions TradeLogic.wSellRaw.symbol =
      some [{ price := TradeLogic.wSellRaw.price, date := TradeLogic.wSellRaw.timestamp,
              qty := TradeLogic.wSellRaw.quantity + TradeLogic.sumLotQty [TradeLogic.wLot10],
              fx := TradeLogic.mdOne.get_fx_rate (TradeLogic.wSellRaw.currency ++ "EUR")
                      TradeLogic.wSellRaw.timestamp }] ∧
     TradeLogic.wSellRaw.quantity + TradeLogic.sumLotQty [TradeLogic.wLot10] < 0) :=
  ⟨rfl,
   by norm_num [TradeLogic.wSellRaw],
   by norm_num [TradeLogic.sumLotQty, TradeLogic.wLot10, TradeLogic.wSellRaw],
   claim_C4_flip_closes_all_and_opens_remainder.1 TradeLogic.mdOne TradeLogic.wFlipState
     TradeLogic.wSellRaw TradeLogic.wLot10 []
     rfl
     (by intro lot hl
         rw [List.mem_singleton] at hl
         subst hl
         norm_num [TradeLogic.wLot10])
     (by norm_num [TradeLogic.wSellRaw])
     (by norm_num [TradeLogic.sumLotQty, TradeLogic.wLot10, TradeLogic.wSellRaw])⟩
